import Mathlib

/-!
Verification development for the D2L batch date editor
(`d2l_date_processing.py`, `d2l_process_csv_cli.py`).

The Python code is shallowly embedded: pure text transforms become Lean
functions on `List Char` / `String`; the browser/DOM environment is
modelled as explicit records of booleans and lists describing what the
live document would answer at each interaction point; fallible parsing
returns `Option`.  Python `str` operations are modelled at Unicode
scalar-value level; case folding is modelled on the ASCII range, which
is exact for every label and literal these theorems evaluate.
-/

namespace D2L

/-! ## Character classes -/

/-- Whitespace as matched by Python `\s` / `str.strip` (ASCII whitespace
plus the common Unicode space code points). -/
def isPySpace (c : Char) : Bool :=
  c = ' ' || c = '\t' || c = '\n' || c = '\r' || c.toNat = 0x0b || c.toNat = 0x0c ||
  c.toNat = 0x85 || c.toNat = 0xa0 || c.toNat = 0x1680 ||
  (0x2000 ≤ c.toNat && c.toNat ≤ 0x200a) ||
  c.toNat = 0x2028 || c.toNat = 0x2029 || c.toNat = 0x202f || c.toNat = 0x205f ||
  c.toNat = 0x3000

/-- The dash variants replaced by the normalizer: the regex class
`[-–—−]` at lines 586/598 of `d2l_date_processing.py`. -/
def isDashChar (c : Char) : Bool :=
  c = '-' || c = '–' || c = '—' || c = '−'

/-- Membership in the Unicode ranges stripped by `_remove_emojis`
(lines 554-568 of `d2l_date_processing.py`). -/
def isEmojiChar (c : Char) : Bool :=
  let n := c.toNat
  (0x1F600 ≤ n && n ≤ 0x1F64F) ||
  (0x1F300 ≤ n && n ≤ 0x1F5FF) ||
  (0x1F680 ≤ n && n ≤ 0x1F6FF) ||
  (0x1F1E0 ≤ n && n ≤ 0x1F1FF) ||
  (0x2702 ≤ n && n ≤ 0x27B0) ||
  (0x24C2 ≤ n && n ≤ 0x1F251) ||
  (0x1F900 ≤ n && n ≤ 0x1F9FF) ||
  (0x1FA00 ≤ n && n ≤ 0x1FA6F) ||
  (0x1FA70 ≤ n && n ≤ 0x1FAFF) ||
  (0x2600 ≤ n && n ≤ 0x26FF) ||
  (0x2700 ≤ n && n ≤ 0x27BF) ||
  (0xFE00 ≤ n && n ≤ 0xFE0F)

/-- ASCII upper-case letter test, spelled as list membership so that case
analyses stay finite. -/
def upperAsciiList : List Char :=
  ['A', 'B', 'C', 'D', 'E', 'F', 'G', 'H', 'I', 'J', 'K', 'L', 'M',
   'N', 'O', 'P', 'Q', 'R', 'S', 'T', 'U', 'V', 'W', 'X', 'Y', 'Z']

def isUpperAscii (c : Char) : Bool := upperAsciiList.contains c

/-- Case folding step of the normalizer (`.lower()` at lines 590/602),
modelled on the ASCII range. -/
def asciiLower (c : Char) : Char :=
  match c with
  | 'A' => 'a' | 'B' => 'b' | 'C' => 'c' | 'D' => 'd' | 'E' => 'e'
  | 'F' => 'f' | 'G' => 'g' | 'H' => 'h' | 'I' => 'i' | 'J' => 'j'
  | 'K' => 'k' | 'L' => 'l' | 'M' => 'm' | 'N' => 'n' | 'O' => 'o'
  | 'P' => 'p' | 'Q' => 'q' | 'R' => 'r' | 'S' => 's' | 'T' => 't'
  | 'U' => 'u' | 'V' => 'v' | 'W' => 'w' | 'X' => 'x' | 'Y' => 'y'
  | 'Z' => 'z'
  | c => c

/-- Upper-casing (`.upper()` inside the time parser), modelled on ASCII. -/
def asciiUpper (c : Char) : Char :=
  match c with
  | 'a' => 'A' | 'b' => 'B' | 'c' => 'C' | 'd' => 'D' | 'e' => 'E'
  | 'f' => 'F' | 'g' => 'G' | 'h' => 'H' | 'i' => 'I' | 'j' => 'J'
  | 'k' => 'K' | 'l' => 'L' | 'm' => 'M' | 'n' => 'N' | 'o' => 'O'
  | 'p' => 'P' | 'q' => 'Q' | 'r' => 'R' | 's' => 'S' | 't' => 'T'
  | 'u' => 'U' | 'v' => 'V' | 'w' => 'W' | 'x' => 'X' | 'y' => 'Y'
  | 'z' => 'Z'
  | c => c

/-! ## Generic string primitives (Python semantics, on `List Char`) -/

/-- Python `str.lstrip()` (whitespace). -/
def trimLeft (l : List Char) : List Char := l.dropWhile isPySpace

/-- Python `str.rstrip()` (whitespace), written structurally. -/
def trimRight : List Char → List Char
  | [] => []
  | c :: rest =>
    match trimRight rest with
    | [] => if isPySpace c then [] else [c]
    | r => c :: r

/-- Python `str.strip()` (whitespace). -/
def pyStrip (l : List Char) : List Char := trimRight (trimLeft l)

/-- Python `str.strip(chars)` restricted to a single character, used for
`.strip(chr)` on quotes. -/
def stripChar (q : Char) (l : List Char) : List Char :=
  ((l.dropWhile (· = q)).reverse.dropWhile (· = q)).reverse

/-- Python substring containment `needle in hay`. -/
def subList (needle hay : List Char) : Bool :=
  hay.tails.any (fun t => needle.isPrefixOf t)

/-- Python `str.split(sep)` for a one-character separator: splits at
every occurrence, keeping empty pieces. -/
def splitCh (sep : Char) : List Char → List (List Char)
  | [] => [[]]
  | c :: rest =>
    match splitCh sep rest with
    | [] => [[c]]
    | h :: t => if c = sep then [] :: h :: t else (c :: h) :: t

/-- Python `str.replace(old, '')` removing every occurrence of a
character (used for removing quote characters). -/
def removeChar (q : Char) (l : List Char) : List Char :=
  l.filter (fun c => !(c = q))

/-- Digit run to a number; `none` unless nonempty and all digits. -/
def digitsToNat : List Char → Option Nat
  | [] => none
  | l => l.foldl (fun acc c =>
      match acc with
      | none => none
      | some n => if c.isDigit then some (n * 10 + (c.toNat - 48)) else none)
      (some 0)

/-- Python `int(str)`: optional surrounding whitespace, optional sign,
then a nonempty digit run (digit-group underscores are not modelled;
no input in this development contains them). -/
def pyInt (l : List Char) : Option Int :=
  match pyStrip l with
  | '+' :: r => (digitsToNat r).map (fun n => (n : Int))
  | '-' :: r => (digitsToNat r).map (fun n => -(n : Int))
  | r => (digitsToNat r).map (fun n => (n : Int))

/-! ## The name normalizer
Embeds the transform at lines 586-590 (target side) / 597-602
(candidate side) of `d2l_date_processing.py`:
dashes to spaces, comma spacing to `", "`, whitespace collapse + strip,
emoji strip, and lower-casing for comparison. -/

/-- Replacement of every dash variant with a space:
`re.sub(r'[-–—−]', ' ', s)`. -/
def dashSub (l : List Char) : List Char :=
  l.map (fun c => if isDashChar c then ' ' else c)

/-- Scanner for `re.sub(r',\s*', ', ', s)`: when `skip` is set the
whitespace run following an emitted `", "` is being consumed. -/
def commaAux : Bool → List Char → List Char
  | _, [] => []
  | true, c :: rest =>
    if isPySpace c then commaAux true rest
    else if c = ',' then ',' :: ' ' :: commaAux true rest
    else c :: commaAux false rest
  | false, c :: rest =>
    if c = ',' then ',' :: ' ' :: commaAux true rest
    else c :: commaAux false rest

/-- Comma-spacing normalization `re.sub(r',\s*', ', ', s)`. -/
def commaSub (l : List Char) : List Char := commaAux false l

/-- Scanner for `re.sub(r'\s+', ' ', s)`: when `run` is set the current
whitespace run has already emitted its single space. -/
def collapseAux : Bool → List Char → List Char
  | _, [] => []
  | true, c :: rest =>
    if isPySpace c then collapseAux true rest
    else c :: collapseAux false rest
  | false, c :: rest =>
    if isPySpace c then ' ' :: collapseAux true rest
    else c :: collapseAux false rest

/-- Whitespace-run collapse `re.sub(r'\s+', ' ', s)`. -/
def collapseWs (l : List Char) : List Char := collapseAux false l

/-- `_remove_emojis` (lines 538-569): delete the emoji ranges, then
`strip()`. -/
def removeEmojis (l : List Char) : List Char :=
  pyStrip (l.filter (fun c => !isEmojiChar c))

/-- The per-side normalization chain before case folding:
dash fold, comma spacing, whitespace collapse + strip, emoji strip. -/
def normCore (l : List Char) : List Char :=
  removeEmojis (pyStrip (collapseWs (commaSub (dashSub l))))

/-- Case folding applied for comparison (`.lower()`). -/
def lowerAll (l : List Char) : List Char := l.map asciiLower

/-- Full normalized comparison key of a label, as a character list. -/
def normalizeChars (l : List Char) : List Char := lowerAll (normCore l)

/-- Full normalized comparison key of a label (the spec `normalize`). -/
def normalize (s : String) : String := String.mk (normalizeChars s.data)

/-! ## Date and time parsing
Embeds the parsing block of `set_date_in_iframe`
(lines 1086-1120 of `d2l_date_processing.py`).  The Python code keeps
the parsed components as strings (only the hour passes through `int`
for the AM/PM arithmetic), so the embedding produces string components;
a raised `ValueError` becomes `none` (the surrounding `try` converts it
into the all-false outcome). -/

/-- Python `str.replace('PM', '')`: left-to-right removal of every
occurrence of the two-character needle. -/
def removePM : List Char → List Char
  | 'P' :: 'M' :: rest => removePM rest
  | c :: rest => c :: removePM rest
  | [] => []

/-- Python `str.replace('AM', '')`. -/
def removeAM : List Char → List Char
  | 'A' :: 'M' :: rest => removeAM rest
  | c :: rest => c :: removeAM rest
  | [] => []

/-- Tuple unpacking `hour, minute = part.split(':')`: succeeds exactly
when the split yields two pieces. -/
def split2 (sep : Char) (l : List Char) : Option (List Char × List Char) :=
  match splitCh sep l with
  | [a, b] => some (a, b)
  | _ => none

/-- Shared shape of the three time branches: inside a branch, split on
`':'` when present, else the minute defaults to `"0"`. -/
def hourMinuteSplit (part : List Char) : Option (List Char × List Char) :=
  if subList [':'] part then split2 ':' part else some (part, ['0'])

/-- Time parsing of `set_date_in_iframe` (lines 1095-1114): detect
`PM`/`AM` as a substring of the upper-cased input (PM first), strip the
marker, split `hour:minute`, and push the hour through the 12-hour
arithmetic; the plain branch passes both components through untouched.
Components stay strings, exactly as in the source. -/
def parse_time (t : String) : Option (String × String) :=
  let up := t.data.map asciiUpper
  if subList ['P', 'M'] up then
    match hourMinuteSplit (pyStrip (removePM up)) with
    | none => none
    | some (h, m) =>
      match pyInt h with
      | none => none
      | some hv =>
        some (toString (if hv ≠ 12 then hv + 12 else 12), String.mk m)
  else if subList ['A', 'M'] up then
    match hourMinuteSplit (pyStrip (removeAM up)) with
    | none => none
    | some (h, m) =>
      match pyInt h with
      | none => none
      | some hv =>
        some (toString (if hv ≠ 12 then hv else 0), String.mk m)
  else
    match hourMinuteSplit t.data with
    | none => none
    | some (h, m) => some (String.mk h, String.mk m)

/-- English month names recognised by `strptime` for `%B`. -/
def monthNames : List String :=
  [(r"January"), (r"February"), (r"March"), (r"April"), (r"May"),
   (r"June"), (r"July"), (r"August"), (r"September"), (r"October"),
   (r"November"), (r"December")]

/-- Case-insensitive match of a month name, returning the 1-based month
number and the remaining characters. -/
def matchMonth (l : List Char) : Option (Nat × List Char) :=
  (monthNames.enumFrom 1).firstM (fun (idx, nm) =>
    let nmChars := nm.data.map asciiLower
    if nmChars.isPrefixOf (l.map asciiLower) then
      some (idx, l.drop nmChars.length)
    else none)

/-- Leading digit run (at most `k` digits): returns the value and rest;
`none` when no digit leads. -/
def takeDigits (k : Nat) (l : List Char) : Option (Nat × List Char) :=
  let run := (l.take k).takeWhile Char.isDigit
  match digitsToNat run with
  | none => none
  | some v => some (v, l.drop run.length)

/-- `datetime.strptime(s, '%B %d, %Y')`: month name, whitespace, day
digits (validated to 1-31), comma, whitespace, year digits, end of
input.  Mirrors the accepting behaviour of CPython `_strptime` for this
fixed format. -/
def strptimeLong (l : List Char) : Option (Nat × Nat × Nat) :=
  match matchMonth l with
  | none => none
  | some (mo, r1) =>
    let r2 := r1.dropWhile isPySpace
    match takeDigits 2 r2 with
    | none => none
    | some (day, r3) =>
      if day < 1 || 31 < day then none
      else
        match r3 with
        | ',' :: r4 =>
          let r5 := r4.dropWhile isPySpace
          (match takeDigits 4 r5 with
           | some (yr, []) => some (mo, day, yr)
           | _ => none)
        | _ => none

/-- Date parsing of `set_date_in_iframe` (lines 1088-1093): slash dates
unpack into three raw string pieces; otherwise the long form is parsed
by `strptime` and re-rendered through `str(...)`. -/
def parse_date (d : String) : Option (String × String × String) :=
  if subList ['/'] d.data then
    match splitCh '/' d.data with
    | [m, dd, y] => some (String.mk m, String.mk dd, String.mk y)
    | _ => none
  else
    match strptimeLong d.data with
    | none => none
    | some (mo, day, yr) => some (toString mo, toString day, toString yr)

/-- The whole parse block (lines 1087-1120): both parses must succeed,
else the caught `ValueError` yields the all-false outcome. -/
def parseDateTime (d t : String) :
    Option (String × String × String × String × String) :=
  match parse_date d, parse_time t with
  | some (mo, day, yr), some (h, mi) => some (mo, day, yr, h, mi)
  | _, _ => none

/-! ## Entity resolver
Embeds `find_assignment_due_date_link` (lines 571-759) and
`find_assignment_start_date_link` (lines 761-955).  The rendered page
is modelled by the answers the driver would give to each of the XPath
queries those functions issue: anchor texts in document order, the
name-column anchors, and per-row trigger-candidate link texts. -/

/-- String-level substring containment (Python `in`). -/
def subStr (needle hay : String) : Bool := subList needle.data hay.data

/-- String-level `str.strip()`. -/
def pyStripS (s : String) : String := String.mk (pyStrip s.data)

/-- String-level `str.lower()` (ASCII range). -/
def lowerS (s : String) : String := String.mk (s.data.map asciiLower)

/-- Trigger-candidate links of one table row, as the texts (and, for
the start-date fallback, hrefs) the row would expose to each selector
used by the two resolvers. -/
structure Row where
  /-- texts of `.//a[@title='Edit the due date']` -/
  titledDue : List String
  /-- per `d_dg_col_DueDate` cell, the texts of its `.//a` links -/
  dueCells : List (List String)
  /-- texts of `.//a[contains(@class, 'd2l-link-inline')]` -/
  inlineLinks : List String
  /-- per start-date selector (lines 884-888), the matching link texts -/
  startSel : List (List String)
  /-- `(text, href)` of the inline links, for the start fallback -/
  inlineHref : List (String × String)
  /-- per StartDate-classed cell (line 935), the texts of its links -/
  startCells : List (List String)
deriving Repr, DecidableEq

/-- An anchor element: its text and the row it belongs to. -/
structure Anchor where
  text : String
  row : Row
deriving Repr, DecidableEq

/-- The listing page as seen through the queries the resolvers issue. -/
structure Page where
  /-- `//a`, document order -/
  anchors : List Anchor
  /-- `//td[contains(@class, 'd_dg_col_Name')]//a`, document order -/
  nameAnchors : List Anchor
  /-- `//td` with their full text content, document order -/
  cells : List (String × Row)
deriving Repr, DecidableEq

/-- Comparison key the resolver builds for the target name
(lines 586-590): dash fold, comma spacing, collapse + strip, emoji
strip, lower. -/
def nameKey (s : String) : List Char := normalizeChars s.data

/-- Comparison key built for a candidate label (lines 597-602): the
link text is `.strip()`-ed first, then the same chain. -/
def candKey (s : String) : List Char := normalizeChars (pyStrip s.data)

/-- The normalized-equality test of strategy 2 (line 605). -/
def normalizedEqMatch (target cand : String) : Bool :=
  candKey cand == nameKey target

/-- Strategy 2: first name-column anchor whose normalized key equals
the normalized target key (lines 594-608). -/
def s2find (target : String) (cands : List Anchor) : Option Anchor :=
  cands.find? (fun a => normalizedEqMatch target a.text)

/-- Quote removal `name.replace('\x22', '').replace(chr(39), '')`
(line 614). -/
def noQuotes (s : String) : String :=
  String.mk (removeChar '\'' (removeChar '"' s.data))

/-- Target key of strategy 3b (lines 620-629): quotes removed, then
emoji strip FIRST, then dash fold, comma spacing, collapse + strip,
lower — a different composition order than strategy 2. -/
def s3TargetKey (name : String) : List Char :=
  lowerAll (pyStrip (collapseWs (commaSub (dashSub
    (removeEmojis (noQuotes name).data)))))

/-- Candidate key of strategy 3b (lines 624-632). -/
def s3CandKey (text : String) : List Char :=
  lowerAll (pyStrip (collapseWs (commaSub (dashSub
    (removeEmojis (pyStrip text.data))))))

/-- Removal of the literal filler `' key'` (line 643/837). -/
def removeSpaceKey : List Char → List Char
  | ' ' :: 'k' :: 'e' :: 'y' :: rest => removeSpaceKey rest
  | c :: rest => c :: removeSpaceKey rest
  | [] => []

/-- The staged name-matching shared by both resolvers
(lines 576-660 / 766-856): raw containment, normalized equality,
quote-stripped containment, quote+emoji-stripped normalized equality,
then the `' key'`-stripped retries. -/
def nameMatch (name : String) (page : Page) : Option Anchor :=
  match page.anchors.find? (fun a => subStr name a.text) with
  | some a => some a
  | none =>
  match s2find name page.nameAnchors with
  | some a => some a
  | none =>
  let clean := noQuotes name
  match page.anchors.find? (fun a => subStr clean a.text) with
  | some a => some a
  | none =>
  match page.nameAnchors.find?
      (fun a => s3CandKey a.text == s3TargetKey name) with
  | some a => some a
  | none =>
  if subStr (r"key") name then
    let keyPart := String.mk (removeSpaceKey name.data)
    match page.anchors.find? (fun a => subStr keyPart a.text) with
    | some a => some a
    | none =>
      let kpNe := String.mk (removeEmojis keyPart.data)
      page.nameAnchors.find? (fun a =>
        let tNe := String.mk (removeEmojis (pyStrip a.text.data))
        subStr (lowerS kpNe) (lowerS tNe) || subStr (lowerS tNe) (lowerS kpNe))
  else none

/-- Date-looking text for due-date triggers (lines 699/712/742). -/
def datePatternHit (t : String) : Bool :=
  subStr (r"2025") t || subStr (r"2026") t || subStr (r"/") t ||
  subStr (r"PM") t || subStr (r"AM") t

/-- First qualifying link of one DueDate cell (lines 694-703): a date,
a dash, or empty text. -/
def dueCellPick (cell : List String) : Option String :=
  cell.find? (fun t =>
    datePatternHit (pyStripS t) || pyStripS t == (r"-") || pyStripS t == (r""))

/-- Due-trigger search inside the matched row (lines 689-719): titled
links, then per-cell picks, then pattern-filtered inline links. -/
def dueTrigger (row : Row) : Option String :=
  let titled := row.titledDue
  let links :=
    if titled ≠ [] then titled
    else
      let collected := row.dueCells.filterMap dueCellPick
      if collected ≠ [] then collected
      else row.inlineLinks.filter (fun t =>
        datePatternHit (pyStripS t) || pyStripS t == (r"-"))
  links.head?

/-- Fallback strategy 2 of the due resolver (lines 723-752): first
name-containing cell whose row yields a titled or date-patterned
inline link. -/
def dueStrategy2 (name : String) (page : Page) : Option String :=
  (page.cells.filter (fun c => subStr name c.1)).firstM (fun c =>
    let links :=
      if c.2.titledDue ≠ [] then c.2.titledDue
      else c.2.inlineLinks.filter (fun t => datePatternHit (pyStripS t))
    links.head?)

/-- Diagnostic labels logged by the due resolver on total match
failure (lines 672-679): the first 10 name-column anchors, stripped,
kept when nonempty of length above 5. -/
def dueDiagnostics (page : Page) : List String :=
  ((page.nameAnchors.take 10).map (fun a => pyStripS a.text)).filter
    (fun t => !(t == (r"")) && Nat.blt 5 t.length)

/-- `find_assignment_due_date_link` (lines 571-759): the returned
element (as its text) paired with the labels logged on name-match
failure.  A `none` first component is the `return None` at 755. -/
def find_assignment_due_date_link (name : String) (page : Page) :
    Option String × List String :=
  match nameMatch name page with
  | some a =>
    (match dueTrigger a.row with
     | some t => (some t, [])
     | none => (dueStrategy2 name page, []))
  | none => (dueStrategy2 name page, dueDiagnostics page)

/-- Date-looking text for start-date triggers (line 900). -/
def startPatternHit (t : String) : Bool :=
  datePatternHit t || subStr (r"No start date") t

/-- First qualifying link under one start-date selector
(lines 890-904): a dash, or a start-date pattern. -/
def startSelPick (links : List String) : Option String :=
  links.find? (fun t => pyStripS t == (r"-") || startPatternHit (pyStripS t))

/-- Start-trigger search inside the matched row (lines 883-921):
the three selectors in order, then the href-filtered inline fallback. -/
def startTrigger (row : Row) : Option String :=
  match row.startSel.firstM startSelPick with
  | some t => some t
  | none =>
    (row.inlineHref.find? (fun p =>
      subStr (r"start") (lowerS p.2) || subStr (r"availability") (lowerS p.2) ||
      pyStripS p.1 == (r"No start date") ||
      (datePatternHit (pyStripS p.1) && !subStr (r"due") (lowerS p.2)))).map
      (fun p => p.1)

/-- Fallback strategy 2 of the start resolver (lines 923-948). -/
def startStrategy2 (name : String) (page : Page) : Option String :=
  (page.cells.filter (fun c => subStr name c.1)).firstM (fun c =>
    c.2.startCells.firstM (fun cell =>
      cell.find? (fun t =>
        datePatternHit (pyStripS t) || pyStripS t == (r"-") ||
        pyStripS t == (r""))))

/-- Diagnostic labels logged by the start resolver on total match
failure (lines 864-873): first 15 name-column anchors, stripped, kept
when nonempty of length above 2. -/
def startDiagnostics (page : Page) : List String :=
  ((page.nameAnchors.take 15).map (fun a => pyStripS a.text)).filter
    (fun t => !(t == (r"")) && Nat.blt 2 t.length)

/-- `find_assignment_start_date_link` (lines 761-955). -/
def find_assignment_start_date_link (name : String) (page : Page) :
    Option String × List String :=
  match nameMatch name page with
  | some a =>
    (match startTrigger a.row with
     | some t => (some t, [])
     | none => (startStrategy2 name page, []))
  | none => (startStrategy2 name page, startDiagnostics page)

/-! ## Field editor session
Embeds `set_date_in_iframe` (lines 1081-1298) and the two mini-editor
wrappers (lines 957-1079).  The checkbox, the dialog, the input fields
and the save control live in the browser; each probe or action the code
performs on them is answered by an explicit environment record. -/

/-- The `checkbox_result` dictionary built at lines 1123-1183. -/
structure CheckboxResult where
  found : Bool
  wasUnchecked : Bool
  nowChecked : Bool
deriving Repr, DecidableEq

/-- The outcome dictionary of a field-edit attempt.  `checkboxResult`
and `saveClicked` are `Option` because only some return paths add
those keys. -/
structure Outcome where
  dateFound : Bool
  dateSet : Bool
  timeFound : Bool
  timeSet : Bool
  totalElements : Nat
  checkboxResult : Option CheckboxResult
  saveClicked : Option Bool
deriving Repr, DecidableEq

/-- The bare all-false dictionary returned at lines 1120 and 1298
(and by the wrapper handlers). -/
def allFalseOutcome : Outcome :=
  { dateFound := false, dateSet := false, timeFound := false,
    timeSet := false, totalElements := 0,
    checkboxResult := none, saveClicked := none }

/-- Browser answers for one run of `set_date_in_iframe`. -/
structure IframeEnv where
  /-- `find_element(By.ID, checkbox_selector)` succeeds -/
  cbFound : Bool
  /-- `is_selected()` before any activation -/
  cbChecked : Bool
  /-- the synthetic-event script of the start branch (lines 1148-1153) raises -/
  jsActivateRaises : Bool
  /-- `is_selected()` after the start-branch activation -/
  jsSelectedAfter : Bool
  /-- `checkbox.click()` of the due branch (line 1168) raises -/
  clickRaises : Bool
  /-- `is_selected()` after the due-branch click -/
  clickSelectedAfter : Bool
  /-- the STEP 2 `execute_script` call itself raises (outer handler) -/
  step2Raises : Bool
  /-- `querySelector` hits for the five component fields -/
  yearPresent : Bool
  monthPresent : Bool
  dayPresent : Bool
  hourPresent : Bool
  minutePresent : Bool
  /-- the value-write/dispatch block for the date fields throws -/
  dateWriteRaises : Bool
  /-- the value-write/dispatch block for the time fields throws -/
  timeWriteRaises : Bool
  /-- the save step (lines 1262-1284) raises before a click lands -/
  saveRaises : Bool
  /-- some save selector finds a displayed and enabled button -/
  saveClickable : Bool
deriving Repr, DecidableEq

/-- STEP 1 (lines 1122-1183): resolve the checkbox, activate it when
unchecked — synthetic state mutation plus event dispatch for the start
kind (`checkbox_id == 'z_o'`), a plain click otherwise — and verify the
post-activation state via `is_selected()`. -/
def checkboxStep (cid : Option String) (env : IframeEnv) : CheckboxResult :=
  if env.cbChecked then
    { found := true, wasUnchecked := false, nowChecked := true }
  else if cid = some (r"z_o") then
    { found := true, wasUnchecked := true,
      nowChecked := !env.jsActivateRaises && env.jsSelectedAfter }
  else
    { found := true, wasUnchecked := true,
      nowChecked := !env.clickRaises && env.clickSelectedAfter }

/-- STEP 2 script (lines 1192-1252): find the five fields, write the
date components when year+month+day are co-present, the time
components when hour+minute are co-present. -/
def writeStep (env : IframeEnv) (cb : CheckboxResult) : Outcome :=
  let dateFound := env.yearPresent && env.monthPresent && env.dayPresent
  let timeFound := env.hourPresent && env.minutePresent
  { dateFound := dateFound
    dateSet := dateFound && !env.dateWriteRaises
    timeFound := timeFound
    timeSet := timeFound && !env.timeWriteRaises
    totalElements :=
      (if env.yearPresent then 1 else 0) + (if env.monthPresent then 1 else 0) +
      (if env.dayPresent then 1 else 0) + (if env.hourPresent then 1 else 0) +
      (if env.minutePresent then 1 else 0)
    checkboxResult := some cb
    saveClicked := none }

/-- `set_date_in_iframe` (lines 1081-1298).  `cid` is the
`checkbox_id` keyword argument (`none` for the due kind, `some "z_o"`
for the start kind). -/
def set_date_in_iframe (d t : String) (cid : Option String)
    (env : IframeEnv) : Outcome :=
  match parseDateTime d t with
  | none => allFalseOutcome
  | some _ =>
    if !env.cbFound then
      { allFalseOutcome with
        checkboxResult :=
          some { found := false, wasUnchecked := false, nowChecked := false } }
    else
      let cb := checkboxStep cid env
      if cid.isSome && !cb.nowChecked then
        { allFalseOutcome with checkboxResult := some cb }
      else if env.step2Raises then allFalseOutcome
      else
        let res := writeStep env cb
        if env.saveRaises then { res with saveClicked := some false }
        else { res with saveClicked := some env.saveClickable }

/-- One nested sub-document of the dialog, as the input names it
exposes to `querySelectorAll`. -/
structure FrameDoc where
  inputNames : List String
deriving Repr, DecidableEq

/-- The frame probe at lines 981-984 / 1054-1057: the selector union
`input[name*="year"], input[name*="month"], input[name*="day"]` is
nonempty — some input name contains `year`, `month` OR `day`. -/
def frameHasDateFields (f : FrameDoc) : Bool :=
  f.inputNames.any (fun n =>
    subStr (r"year") n || subStr (r"month") n || subStr (r"day") n)

/-- Index of the first list element satisfying a predicate — the shape
of the `for i, iframe in enumerate(iframes)` probe loop. -/
def firstIdx (p : α → Bool) : List α → Option Nat
  | [] => none
  | x :: xs => if p x then some 0 else (firstIdx p xs).map (fun i => i + 1)

/-- The frame the wrappers settle on: the first whose probe succeeds. -/
def selectFrame (frames : List FrameDoc) : Option Nat :=
  firstIdx frameHasDateFields frames

/-- Browser answers for one run of a mini-editor wrapper. -/
structure MiniEnv where
  /-- the dialog wait succeeds within its timeout -/
  dialogAppears : Bool
  /-- the iframes found inside the dialog, in order -/
  frames : List FrameDoc
  /-- any other exception inside the wrapper body (caught at
  lines 1000-1006 / 1073-1079) -/
  outerRaises : Bool
  /-- answers for the inner `set_date_in_iframe` run -/
  inner : IframeEnv
deriving Repr, DecidableEq

/-- `set_date_in_mini_editor` (lines 957-1006): dialog wait, frame
probe in order, then the inner edit with no `checkbox_id`. -/
def set_date_in_mini_editor (d t : String) (env : MiniEnv) : Outcome :=
  if env.outerRaises then allFalseOutcome
  else if !env.dialogAppears then allFalseOutcome
  else if env.frames = [] then allFalseOutcome
  else
    match selectFrame env.frames with
    | none => allFalseOutcome
    | some _ => set_date_in_iframe d t none env.inner

/-- `set_start_date_in_mini_editor` (lines 1008-1079): same shape, with
the start checkbox id `z_o` passed down. -/
def set_start_date_in_mini_editor (d t : String) (env : MiniEnv) : Outcome :=
  if env.outerRaises then allFalseOutcome
  else if !env.dialogAppears then allFalseOutcome
  else if env.frames = [] then allFalseOutcome
  else
    match selectFrame env.frames with
    | none => allFalseOutcome
    | some _ => set_date_in_iframe d t (some (r"z_o")) env.inner

/-! ## Batch coordinator and CLI
Embeds `process_csv_file` (lines 373-474) and the CLI `main`
(`d2l_process_csv_cli.py`).  `set_assignment_due_date` and
`set_assignment_start_date` catch every exception internally and
return a boolean (lines 476-536), so a per-row oracle of booleans is an
exact model of their behaviour as seen from the loop. -/

/-- One input record, the five cells of a CSV row. -/
structure Record where
  name : String
  startDate : String
  startTime : String
  dueDate : String
  dueTime : String
deriving Repr, DecidableEq

/-- The two field kinds. -/
inductive EditField
  | due
  | start
deriving Repr, DecidableEq

/-- Outcome oracle: what `set_assignment_due_date` /
`set_assignment_start_date` return for the record at a given position. -/
def EditOracle := Nat → EditField → Bool

/-- Observable interaction events of one record, in the order they are
issued. -/
inductive Ev
  | editDue (ok : Bool)
  | editStart (ok : Bool)
deriving Repr, DecidableEq

/-- The body of the row loop (lines 392-462): skip empty names, attempt
the due edit first when both due cells are populated, then the start
edit when both start cells are populated, count one error per failed
attempt and one processed record when at least one attempt succeeded.
Returns `(processedIncrement, errorIncrement, eventTrace)`. -/
def processRecord (env : EditOracle) (i : Nat) (r : Record) :
    Nat × Nat × List Ev :=
  let name := pyStripS r.name
  if name == (r"") then (0, 0, [])
  else
    let dueDate := pyStripS r.dueDate
    let dueTime := pyStripS r.dueTime
    let dueStep :=
      if !(dueDate == (r"")) && !(dueTime == (r"")) then
        let ok := env i EditField.due
        (ok, if ok then 0 else 1, [Ev.editDue ok])
      else (false, 0, [])
    let startDate := pyStripS r.startDate
    let startTime := pyStripS r.startTime
    let startStep :=
      if !(startDate == (r"")) && !(startTime == (r"")) then
        let ok := env i EditField.start
        (ok, if ok then 0 else 1, [Ev.editStart ok])
      else (false, 0, [])
    (if startStep.1 || dueStep.1 then 1 else 0,
     dueStep.2.1 + startStep.2.1,
     dueStep.2.2 ++ startStep.2.2)

/-- The row loop from a starting position: accumulates the processed
and error counters over the remaining records. -/
def processRowsFrom (env : EditOracle) (i : Nat) :
    List Record → Nat × Nat
  | [] => (0, 0)
  | r :: rest =>
    let step := processRecord env i r
    let acc := processRowsFrom env (i + 1) rest
    (step.1 + acc.1, step.2.1 + acc.2)

/-- A CSV input: its header row and its records. -/
structure CsvFile where
  headers : List String
  rows : List Record
deriving Repr, DecidableEq

/-- The required header names (line 382). -/
def requiredHeaders : List String :=
  [(r"Name"), (r"Start Date"), (r"Start Time"), (r"Due Date"), (r"Due Time")]

/-- The header validation at line 383. -/
def headersValid (f : CsvFile) : Bool :=
  requiredHeaders.all (fun h => f.headers.contains h)

/-- `process_csv_file` (lines 373-474): on invalid headers the raised
`ValueError` is caught by the blanket handler at line 472, which
returns `(0, 1)`; otherwise the row loop runs to completion. -/
def process_csv_file (env : EditOracle) (f : CsvFile) : Nat × Nat :=
  if headersValid f then processRowsFrom env 0 f.rows
  else (0, 1)

/-- What the CLI prints before exiting. -/
inductive CliResult
  | fatal
  | completed (processed : Nat) (errors : Nat)
deriving Repr, DecidableEq

/-- `main` of `d2l_process_csv_cli.py` after argument parsing: driver
setup failure prints a failure JSON and exits 1; otherwise
`process_csv_file` runs, a `success: true` JSON with the two counters
is printed, and the process exits 0.  The pair is
`(printed result, exit code)`. -/
def cliMain (driverOk : Bool) (env : EditOracle) (f : CsvFile) :
    CliResult × Nat :=
  if !driverOk then (CliResult.fatal, 1)
  else
    let counts := process_csv_file env f
    (CliResult.completed counts.1 counts.2, 0)

/-! ## Spec-side definitions
These follow the WORDS of the spec sentences behind the claims that
compare the code against an independent description; each is named
`spec...` and is only ever compared against the source-derived
definitions above. -/

/-- Both due cells populated after stripping — a due edit is attempted. -/
def dueAttempted (r : Record) : Bool :=
  !(pyStripS r.dueDate == (r"")) && !(pyStripS r.dueTime == (r""))

/-- Both start cells populated after stripping. -/
def startAttempted (r : Record) : Bool :=
  !(pyStripS r.startDate == (r"")) && !(pyStripS r.startTime == (r""))

/-- Nonempty name after stripping. -/
def hasName (r : Record) : Bool := !(pyStripS r.name == (r""))

/-- Spec side of C1: a record counts as processed when its name is
nonempty and at least one attempted field edit succeeded. -/
def specRecordSucceeded (env : EditOracle) (i : Nat) (r : Record) : Bool :=
  hasName r &&
    ((dueAttempted r && env i EditField.due) ||
     (startAttempted r && env i EditField.start))

/-- Spec side of C1: failed field edits of one record — one per
attempted edit that did not succeed; none for an empty-name record. -/
def specRecordFailures (env : EditOracle) (i : Nat) (r : Record) : Nat :=
  if hasName r then
    (if dueAttempted r && !env i EditField.due then 1 else 0) +
    (if startAttempted r && !env i EditField.start then 1 else 0)
  else 0

/-- Spec side of C1: counters as the claim words them — processed is
the number of records with a successful edit, errors is the total of
failed field edits. -/
def specCountsFrom (env : EditOracle) (i : Nat) : List Record → Nat × Nat
  | [] => (0, 0)
  | r :: rest =>
    let acc := specCountsFrom env (i + 1) rest
    ((if specRecordSucceeded env i r then 1 else 0) + acc.1,
     specRecordFailures env i r + acc.2)

/-- Spec side of C5: the claim asks for the co-presence of year, month
and day inputs in the frame. -/
def specFrameCoPresent (f : FrameDoc) : Bool :=
  f.inputNames.any (fun n => subStr (r"year") n) &&
  f.inputNames.any (fun n => subStr (r"month") n) &&
  f.inputNames.any (fun n => subStr (r"day") n)

/-- Spec side of C5: first frame with year, month and day co-present. -/
def specSelectFrame (frames : List FrameDoc) : Option Nat :=
  firstIdx specFrameCoPresent frames

/-- Numeric hour:minute reading used by the spec-side time parser. -/
def specHourMinute (l : List Char) : Option (Nat × Nat) :=
  if subList [':'] l then
    match split2 ':' l with
    | none => none
    | some (h, m) =>
      match digitsToNat (pyStrip h), digitsToNat (pyStrip m) with
      | some hv, some mv => some (hv, mv)
      | _, _ => none
  else
    match digitsToNat (pyStrip l) with
    | some hv => some (hv, 0)
    | none => none

/-- Spec side of C6, following the claim words: detect a TRAILING
AM/PM case-insensitively; 12 AM maps to 0, 12 PM to 12, PM adds 12 to
hours 1-11; otherwise the input is assumed to be already 24-hour. -/
def specParseTimeTrailing (t : String) : Option (Nat × Nat) :=
  let s := pyStrip t.data
  let up := s.map asciiUpper
  if ['P', 'M'].isSuffixOf up then
    match specHourMinute (pyStrip (up.take (up.length - 2))) with
    | none => none
    | some (h, m) => some (if h ≠ 12 then h + 12 else 12, m)
  else if ['A', 'M'].isSuffixOf up then
    match specHourMinute (pyStrip (up.take (up.length - 2))) with
    | none => none
    | some (h, m) => some (if h ≠ 12 then h else 0, m)
  else
    specHourMinute s

/-- Numeric reading of the string pair the code-level time parser
produces, for comparison against the spec-side numeric pair. -/
def timePairToNat (p : String × String) : Option (Nat × Nat) :=
  match digitsToNat p.1.data, digitsToNat p.2.data with
  | some h, some m => some (h, m)
  | _, _ => none

/-- Spec side of C9: the carried diagnostic the claim requires — the
first 10 candidate labels actually present, verbatim and unmodified. -/
def specCarriedCandidates (page : Page) : List String :=
  (page.nameAnchors.map (fun a => a.text)).take 10

/-- Label free of the stripped emoji/symbol ranges. -/
def emojiFree (s : String) : Bool := s.data.all (fun c => !isEmojiChar c)

/-! ## Concrete fixtures
Inputs used by the closed evaluation theorems below. -/

/-- Record A of the end-to-end batch: due pair only. -/
def recA : Record :=
  ⟨r"A", r"", r"", r"10/19/2025", r"2:30 PM"⟩

/-- Record B: start pair only. -/
def recB : Record :=
  ⟨r"B", r"10/19/2025", r"9 AM", r"", r""⟩

/-- Record C: both pairs. -/
def recC : Record :=
  ⟨r"C", r"10/19/2025", r"9 AM", r"10/20/2025", r"2:30 PM"⟩

/-- Record D: empty name. -/
def recD : Record :=
  ⟨r"", r"10/19/2025", r"9 AM", r"10/20/2025", r"2:30 PM"⟩

/-- Oracle under which every attempted edit succeeds. -/
def allOk : EditOracle := fun _ _ => true

/-- Oracle under which due edits fail and start edits succeed. -/
def dueFails : EditOracle := fun _ f =>
  match f with
  | EditField.due => false
  | EditField.start => true

/-- A row exposing no trigger links at all. -/
def emptyRow : Row := ⟨[], [], [], [], [], []⟩

/-- A page whose only label is the short name `abc`. -/
def pgSmall : Page :=
  ⟨[⟨r"abc", emptyRow⟩], [⟨r"abc", emptyRow⟩], []⟩

/-- Dialog frames: the first holds only a month input, the second holds
year, month and day inputs together. -/
def framesMixed : List FrameDoc :=
  [⟨[r"month_input"]⟩, ⟨[r"year_i", r"month_i", r"day_i"]⟩]

/-- Browser answers where the due checkbox is found unchecked, the
click lands without raising, but the post-activation `is_selected()`
check reports the box still unchecked; all five component fields exist
and every write succeeds. -/
def envDueUnverified : IframeEnv :=
  { cbFound := true, cbChecked := false,
    jsActivateRaises := false, jsSelectedAfter := false,
    clickRaises := false, clickSelectedAfter := false,
    step2Raises := false,
    yearPresent := true, monthPresent := true, dayPresent := true,
    hourPresent := true, minutePresent := true,
    dateWriteRaises := false, timeWriteRaises := false,
    saveRaises := false, saveClickable := true }

/-- A CSV file whose header row lacks the `Due Time` column. -/
def badHeaderFile : CsvFile :=
  ⟨[r"Name", r"Start Date", r"Start Time", r"Due Date"], [recA]⟩

/-- A mini-editor run whose dialog appears but exposes no frame with
date fields. -/
def miniNoFrame : MiniEnv :=
  { dialogAppears := true, frames := [], outerRaises := false,
    inner := envDueUnverified }

/-! ## Shape predicates for the normalizer output
Used to prove on which labels a second `normalize` pass is the
identity. -/

/-- No dash-variant characters. -/
def noDashP (l : List Char) : Bool := l.all (fun c => !isDashChar c)

/-- No characters of the stripped emoji ranges. -/
def noEmojiP (l : List Char) : Bool := l.all (fun c => !isEmojiChar c)

/-- No ASCII upper-case letters. -/
def noUpperP (l : List Char) : Bool := l.all (fun c => !isUpperAscii c)

/-- Every whitespace character is a plain space. -/
def wsIsSpace (l : List Char) : Bool :=
  l.all (fun c => !isPySpace c || c == ' ')

/-- No two adjacent whitespace characters. -/
def noTwoWs : List Char → Bool
  | [] => true
  | [_] => true
  | c :: d :: r => !(isPySpace c && isPySpace d) && noTwoWs (d :: r)

/-- Every comma is followed by a space or ends the string. -/
def commaOk : List Char → Bool
  | [] => true
  | [_] => true
  | c :: d :: r => (!(c == ',') || d == ' ') && commaOk (d :: r)

/-- Every comma is followed by a space (none ends the string). -/
def commaSpaced : List Char → Bool
  | [] => true
  | [c] => !(c == ',')
  | c :: d :: r => (!(c == ',') || d == ' ') && commaSpaced (d :: r)

/-- First character is not whitespace. -/
def headNoWs (l : List Char) : Bool :=
  match l with
  | [] => true
  | c :: _ => !isPySpace c

/-- Last character is not whitespace. -/
def lastNoWs (l : List Char) : Bool :=
  match l.getLast? with
  | none => true
  | some c => !isPySpace c

/-! # Theorems -/

set_option maxRecDepth 8192

/-- C3: on a header row lacking `Due Time`, the header check fails and
the raised `ValueError` is swallowed by the blanket handler of
`process_csv_file`, which returns `(0, 1)`; the CLI then prints a
success result with those counts and exits 0 — not the fatal non-zero
abort the claim requires. -/
theorem c3_invalid_headers_exit_zero :
    headersValid badHeaderFile = false ∧
    process_csv_file allOk badHeaderFile = (0, 1) ∧
    cliMain true allOk badHeaderFile = (CliResult.completed 0 1, 0) := by
  decide

/-- C6 counterexample: the code detects `PM` as a substring anywhere in
the upper-cased input, not as a trailing marker: on `"PM 2:30"` it
produces hour 14, while the claimed trailing-marker algorithm would
treat the input as already 24-hour (and fail on the non-numeric hour
field). -/
theorem c6_counterexample :
    parse_time (r"PM 2:30") = some ((r"14"), (r"30")) ∧
    (parse_time (r"PM 2:30")).bind timePairToNat = some (14, 30) ∧
    specParseTimeTrailing (r"PM 2:30") = none := by
  decide

/-- C6 amended: the AM/PM conversion table of `set_date_in_iframe`
(substring detection, PM first): the four spec examples, the full
PM/AM hour mappings for hours 1-11, both hour-12 cases, lower-case
markers, and 24-hour passthrough. -/
theorem c6_time_parsing_behaviour :
    (parse_time (r"2:30 PM")).bind timePairToNat = some (14, 30) ∧
    (parse_time (r"12:00 PM")).bind timePairToNat = some (12, 0) ∧
    (parse_time (r"12:00 AM")).bind timePairToNat = some (0, 0) ∧
    (parse_time (r"9 AM")).bind timePairToNat = some (9, 0) ∧
    (∀ n : Fin 11,
      parse_time (toString (n.val + 1) ++ (r":05 PM")) =
        some (toString (n.val + 13), (r"05"))) ∧
    parse_time (r"12:05 PM") = some ((r"12"), (r"05")) ∧
    (∀ n : Fin 11,
      parse_time (toString (n.val + 1) ++ (r":05 AM")) =
        some (toString (n.val + 1), (r"05"))) ∧
    parse_time (r"12:05 AM") = some ((r"0"), (r"05")) ∧
    parse_time (r"14:30") = some ((r"14"), (r"30")) ∧
    parse_time (r"2:30 pm") = some ((r"14"), (r"30")) := by
  decide

/-- C2 counterexample: a due-kind edit (`checkbox_id = None`) whose
toggle click leaves `is_selected()` false is NOT aborted: the abort
guard at line 1187 requires a truthy `checkbox_id`, so the date and
time values are written anyway (`dateSet`/`timeSet` true) even though
the recorded verification shows `nowChecked = false`. -/
theorem c2_counterexample :
    (set_date_in_iframe (r"10/19/2025") (r"2:30 PM") none
        envDueUnverified).checkboxResult =
      some { found := true, wasUnchecked := true, nowChecked := false } ∧
    (set_date_in_iframe (r"10/19/2025") (r"2:30 PM") none
        envDueUnverified).dateSet = true ∧
    (set_date_in_iframe (r"10/19/2025") (r"2:30 PM") none
        envDueUnverified).timeSet = true := by
  decide

/-- C5 counterexample: the probe accepts a frame holding only a month
input (the selector is a union over year/month/day), so the code
settles on frame 0 while the first frame with year, month and day
co-present is frame 1. -/
theorem c5_counterexample :
    selectFrame framesMixed = some 0 ∧
    specFrameCoPresent (FrameDoc.mk [(r"month_input")]) = false ∧
    specSelectFrame framesMixed = some 1 := by
  decide

/-- C8 counterexample: removing an emoji that sits between two spaces
leaves a double space, which only the NEXT pass collapses, so
`normalize` is not idempotent. -/
theorem c8_counterexample :
    normalize (r"a 😀 b") = (r"a  b") ∧
    normalize (normalize (r"a 😀 b")) = (r"a b") ∧
    normalize (normalize (r"a 😀 b")) ≠ normalize (r"a 😀 b") := by
  decide

/-- C9 counterexample: on total match failure the due resolver returns
`None` and its logged diagnostic list drops the label `abc` (length 3,
below the `> 5` filter), so nothing carries the first 10 candidate
labels verbatim as the claim requires. -/
theorem c9_counterexample :
    find_assignment_due_date_link (r"zzz") pgSmall = (none, []) ∧
    specCarriedCandidates pgSmall = [(r"abc")] ∧
    ([] : List String) ≠ [(r"abc")] := by
  decide

/-- One record contributes 1 to the processed counter exactly when the
claim says it should, and its error contribution is the number of its
failed attempted edits. -/
theorem processRecord_counts (env : EditOracle) (i : Nat) (r : Record) :
    (processRecord env i r).1 =
      (if specRecordSucceeded env i r then 1 else 0) ∧
    (processRecord env i r).2.1 = specRecordFailures env i r := by
  unfold processRecord specRecordSucceeded specRecordFailures hasName
    dueAttempted startAttempted
  cases hn : pyStripS r.name == (r"") <;>
    cases h1 : pyStripS r.dueDate == (r"") <;>
      cases h2 : pyStripS r.dueTime == (r"") <;>
        cases h3 : pyStripS r.startDate == (r"") <;>
          cases h4 : pyStripS r.startTime == (r"") <;>
            cases hd : env i EditField.due <;>
              cases hs : env i EditField.start <;>
                simp [hn, h1, h2, h3, h4, hd, hs]

/-- C1: over any batch, the processed counter equals the number of
records with a nonempty name and at least one successful attempted
edit (once per record, never per field), the error counter equals the
total number of failed attempted field edits, empty-name records touch
neither, and the four-record example batch yields `(3, 0)`. -/
theorem c1_batch_counters :
    (∀ (env : EditOracle) (i : Nat) (rows : List Record),
        processRowsFrom env i rows = specCountsFrom env i rows) ∧
    processRowsFrom allOk 0 [recA, recB, recC, recD] = (3, 0) := by
  constructor
  · intro env i rows
    induction rows generalizing i with
    | nil => rfl
    | cons r rest ih =>
      have h := processRecord_counts env i r
      simp only [processRowsFrom, specCountsFrom]
      rw [ih, h.1, h.2]
  · decide

/-- C4: for a record with nonempty name and both field pairs
populated, the interaction trace is exactly a due edit carrying its
resolved outcome followed by a start edit — the due outcome is settled
before the start edit begins, and the start edit happens whatever the
due outcome was. -/
theorem c4_due_resolved_before_start (env : EditOracle) (i : Nat)
    (r : Record) (hn : hasName r = true) (hd : dueAttempted r = true)
    (hs : startAttempted r = true) :
    (processRecord env i r).2.2 =
      [Ev.editDue (env i EditField.due), Ev.editStart (env i EditField.start)] := by
  unfold hasName at hn
  unfold dueAttempted at hd
  unfold startAttempted at hs
  rw [Bool.not_eq_true'] at hn
  rw [Bool.and_eq_true, Bool.not_eq_true', Bool.not_eq_true'] at hd hs
  unfold processRecord
  simp [hn, hd.1, hd.2, hs.1, hs.2]

/-- Witness for C4 at the concrete record C under an oracle that fails
the due edit and passes the start edit: the trace still holds both
events in order. -/
theorem c4_due_resolved_before_start_witness :
    (processRecord dueFails 0 recC).2.2 =
      [Ev.editDue (dueFails 0 EditField.due),
       Ev.editStart (dueFails 0 EditField.start)] :=
  c4_due_resolved_before_start dueFails 0 recC (by decide) (by decide)
    (by decide)

/-- C7: the normalized-matching strategy accepts a candidate only when
its normalized key EQUALS the normalized target key; `Essay 1` does
not match the candidate `Essay 10` under that test, although the
normalized target IS a substring of the normalized candidate (a
containment comparator would have matched). -/
theorem c7_normalized_equality_strict :
    (∀ (t : String) (cands : List Anchor) (a : Anchor),
        s2find t cands = some a → candKey a.text = nameKey t) ∧
    normalizedEqMatch (r"Essay 1") (r"Essay 10") = false ∧
    subList (nameKey (r"Essay 1")) (candKey (r"Essay 10")) = true := by
  refine ⟨?_, by decide, by decide⟩
  intro t cands a h
  have hp := List.find?_some h
  unfold normalizedEqMatch at hp
  exact eq_of_beq hp

/-- Witness for C7: applying the equality characterization on a
one-candidate page resolves `Essay 1` to itself. -/
theorem c7_normalized_equality_strict_witness :
    candKey (r"Essay 1") = nameKey (r"Essay 1") :=
  c7_normalized_equality_strict.1 (r"Essay 1")
    [⟨r"Essay 1", emptyRow⟩] ⟨r"Essay 1", emptyRow⟩ (by decide)

/-- C9 amended: on total name-match failure each resolver returns
`None` together with its LOGGED diagnostic list; that list is a
sublist of the stripped first 10 (due) / 15 (start) name-column
labels, keeping only those longer than 5 (due) / 2 (start)
characters — nothing is carried verbatim in the return value. -/
theorem c9_failure_diagnostics :
    (∀ (name : String) (page : Page),
        (find_assignment_due_date_link name page).2 =
          (if (nameMatch name page).isSome then [] else dueDiagnostics page)) ∧
    (∀ page : Page, List.Sublist (dueDiagnostics page)
        ((page.nameAnchors.take 10).map (fun a => pyStripS a.text))) ∧
    (∀ page : Page,
        (dueDiagnostics page).all (fun t => Nat.blt 5 t.length) = true) ∧
    (∀ (name : String) (page : Page),
        (find_assignment_start_date_link name page).2 =
          (if (nameMatch name page).isSome then [] else startDiagnostics page)) ∧
    (∀ page : Page, List.Sublist (startDiagnostics page)
        ((page.nameAnchors.take 15).map (fun a => pyStripS a.text))) ∧
    (∀ page : Page,
        (startDiagnostics page).all (fun t => Nat.blt 2 t.length) = true) := by
  refine ⟨?_, ?_, ?_, ?_, ?_, ?_⟩
  · intro name page
    unfold find_assignment_due_date_link
    cases hm : nameMatch name page with
    | none => simp
    | some a => cases ht : dueTrigger a.row <;> simp [ht]
  · intro page
    exact List.filter_sublist _
  · intro page
    rw [List.all_eq_true]
    intro t ht
    have hp := List.of_mem_filter ht
    exact (Bool.and_eq_true _ _ |>.mp hp).2
  · intro name page
    unfold find_assignment_start_date_link
    cases hm : nameMatch name page with
    | none => simp
    | some a => cases ht : startTrigger a.row <;> simp [ht]
  · intro page
    exact List.filter_sublist _
  · intro page
    rw [List.all_eq_true]
    intro t ht
    have hp := List.of_mem_filter ht
    exact (Bool.and_eq_true _ _ |>.mp hp).2

/-- Characterization of `firstIdx`: a returned index is in range, its
element satisfies the predicate, and every earlier element fails it. -/
theorem firstIdx_spec {α : Type} (p : α → Bool) (d : α) :
    ∀ (l : List α) (i : Nat), firstIdx p l = some i →
      i < l.length ∧ p (l.getD i d) = true ∧
        ∀ j, j < i → p (l.getD j d) = false := by
  intro l
  induction l with
  | nil => intro i h; exact Option.noConfusion h
  | cons x xs ih =>
    intro i h
    unfold firstIdx at h
    by_cases hx : p x = true
    · rw [if_pos hx] at h
      cases h
      refine ⟨by simp, by simpa using hx, ?_⟩
      intro j hj
      omega
    · rw [if_neg hx] at h
      rw [Bool.not_eq_true] at hx
      cases hr : firstIdx p xs with
      | none => rw [hr] at h; simp at h
      | some k =>
        rw [hr] at h
        simp only [Option.map_some'] at h
        cases h
        obtain ⟨hk1, hk2, hk3⟩ := ih k hr
        refine ⟨by simpa using Nat.succ_lt_succ hk1, by simpa using hk2, ?_⟩
        intro j hj
        cases j with
        | zero => simpa using hx
        | succ j => exact (by simpa using hk3 j (Nat.lt_of_succ_lt_succ hj))

/-- C5 amended: the wrappers settle on the FIRST frame whose probe
succeeds, where the probe accepts any input name containing `year`,
`month` OR `day` (the selector union), not their co-presence; when no
frame qualifies both wrappers return the all-false outcome instead of
raising. -/
theorem c5_frame_selection :
    (∀ (frames : List FrameDoc) (i : Nat), selectFrame frames = some i →
        i < frames.length ∧
        frameHasDateFields (frames.getD i ⟨[]⟩) = true ∧
        ∀ j, j < i → frameHasDateFields (frames.getD j ⟨[]⟩) = false) ∧
    (∀ (d t : String) (env : MiniEnv), selectFrame env.frames = none →
        env.outerRaises = false → env.dialogAppears = true →
        set_date_in_mini_editor d t env = allFalseOutcome) ∧
    (∀ (d t : String) (env : MiniEnv), selectFrame env.frames = none →
        env.outerRaises = false → env.dialogAppears = true →
        set_start_date_in_mini_editor d t env = allFalseOutcome) := by
  refine ⟨?_, ?_, ?_⟩
  · intro frames i h
    exact firstIdx_spec frameHasDateFields ⟨[]⟩ frames i h
  · intro d t env hsel ho hd
    unfold set_date_in_mini_editor
    rw [ho, hd]
    by_cases hf : env.frames = []
    · simp [hf]
    · simp [hf, hsel]
  · intro d t env hsel ho hd
    unfold set_start_date_in_mini_editor
    rw [ho, hd]
    by_cases hf : env.frames = []
    · simp [hf]
    · simp [hf, hsel]

/-- Witness for C5 at the mixed frame list (selection lands on index
0, which satisfies the union probe) and at a dialog with no qualifying
frame (the wrapper returns the all-false outcome). -/
theorem c5_frame_selection_witness :
    (0 < framesMixed.length ∧
      frameHasDateFields (framesMixed.getD 0 ⟨[]⟩) = true ∧
      ∀ j, j < 0 → frameHasDateFields (framesMixed.getD j ⟨[]⟩) = false) ∧
    set_date_in_mini_editor (r"10/19/2025") (r"2:30 PM") miniNoFrame =
      allFalseOutcome :=
  ⟨c5_frame_selection.1 framesMixed 0 (by decide),
   c5_frame_selection.2.1 (r"10/19/2025") (r"2:30 PM") miniNoFrame
     (by decide) (by decide) (by decide)⟩

/-- C2 amended: the post-activation state IS read back for both kinds
(it lands in `nowChecked`), but only the START kind aborts on a failed
verification: with `checkbox_id = z_o` an unverified toggle yields the
all-false outcome with nothing written, while for the DUE kind
(`checkbox_id = None`) the write step runs and `dateSet` depends only
on field presence and write success, regardless of verification. -/
theorem c2_toggle_abort_behaviour :
    (∀ (d t : String) (env : IframeEnv),
        (checkboxStep (some (r"z_o")) env).nowChecked = false →
        (set_date_in_iframe d t (some (r"z_o")) env).dateSet = false ∧
        (set_date_in_iframe d t (some (r"z_o")) env).timeSet = false ∧
        (set_date_in_iframe d t (some (r"z_o")) env).dateFound = false ∧
        (set_date_in_iframe d t (some (r"z_o")) env).timeFound = false) ∧
    (∀ (d t : String) (env : IframeEnv),
        (parseDateTime d t).isSome = true → env.cbFound = true →
        env.step2Raises = false →
        (set_date_in_iframe d t none env).dateSet =
          ((env.yearPresent && env.monthPresent && env.dayPresent) &&
            !env.dateWriteRaises)) := by
  constructor
  · intro d t env hnc
    unfold set_date_in_iframe
    cases hp : parseDateTime d t with
    | none => simp [allFalseOutcome]
    | some v =>
      cases hcb : env.cbFound with
      | false => simp [allFalseOutcome]
      | true => simp [allFalseOutcome, hnc]
  · intro d t env hp hcb hs2
    obtain ⟨v, hv⟩ := Option.isSome_iff_exists.mp hp
    unfold set_date_in_iframe
    rw [hv, hcb, hs2]
    simp [writeStep]
    cases env.saveRaises <;> simp

/-- Witness for C2 at the concrete environment where the due checkbox
stays unverified after its click: the start kind aborts with all flags
false, while the due kind writes the date. -/
theorem c2_toggle_abort_behaviour_witness :
    ((set_date_in_iframe (r"10/19/2025") (r"2:30 PM") (some (r"z_o"))
        envDueUnverified).dateSet = false ∧
     (set_date_in_iframe (r"10/19/2025") (r"2:30 PM") (some (r"z_o"))
        envDueUnverified).timeSet = false ∧
     (set_date_in_iframe (r"10/19/2025") (r"2:30 PM") (some (r"z_o"))
        envDueUnverified).dateFound = false ∧
     (set_date_in_iframe (r"10/19/2025") (r"2:30 PM") (some (r"z_o"))
        envDueUnverified).timeFound = false) ∧
    (set_date_in_iframe (r"10/19/2025") (r"2:30 PM") none
        envDueUnverified).dateSet =
      ((envDueUnverified.yearPresent && envDueUnverified.monthPresent &&
          envDueUnverified.dayPresent) && !envDueUnverified.dateWriteRaises) :=
  ⟨c2_toggle_abort_behaviour.1 (r"10/19/2025") (r"2:30 PM")
      envDueUnverified (by decide),
   c2_toggle_abort_behaviour.2 (r"10/19/2025") (r"2:30 PM")
      envDueUnverified (by decide) (by decide) (by decide)⟩

/-- Every outcome `set_date_in_iframe` can produce keeps `dateSet`
below `dateFound` and `timeSet` below `timeFound`. -/
theorem iframe_flag_invariant (d t : String) (cid : Option String)
    (env : IframeEnv) :
    ((!(set_date_in_iframe d t cid env).dateSet ||
        (set_date_in_iframe d t cid env).dateFound) &&
     (!(set_date_in_iframe d t cid env).timeSet ||
        (set_date_in_iframe d t cid env).timeFound)) = true := by
  unfold set_date_in_iframe
  cases hp : parseDateTime d t with
  | none => simp [allFalseOutcome]
  | some v =>
    cases hcb : env.cbFound with
    | false => simp [allFalseOutcome]
    | true =>
      cases hg : cid.isSome && !(checkboxStep cid env).nowChecked with
      | true => simp [hg, allFalseOutcome]
      | false =>
        cases hs2 : env.step2Raises with
        | true => simp [hg, hs2, allFalseOutcome]
        | false =>
          cases hsr : env.saveRaises <;>
            cases hdf : env.yearPresent && env.monthPresent && env.dayPresent <;>
              cases htf : env.hourPresent && env.minutePresent <;>
                cases env.dateWriteRaises <;>
                  cases env.timeWriteRaises <;>
                    simp [hg, hs2, hsr, writeStep, hdf, htf]

/-- C10: every outcome dictionary a field-edit attempt can produce has
`dateSet` only with `dateFound` and `timeSet` only with `timeFound`
(stated as boolean implications), for the iframe editor and both
mini-editor wrappers alike; and any exception caught by the wrapper or
iframe handlers returns the all-false outcome instead of propagating. -/
theorem c10_outcome_invariant :
    (∀ (d t : String) (cid : Option String) (env : IframeEnv),
        ((!(set_date_in_iframe d t cid env).dateSet ||
            (set_date_in_iframe d t cid env).dateFound) &&
         (!(set_date_in_iframe d t cid env).timeSet ||
            (set_date_in_iframe d t cid env).timeFound)) = true) ∧
    (∀ (d t : String) (env : MiniEnv),
        ((!(set_date_in_mini_editor d t env).dateSet ||
            (set_date_in_mini_editor d t env).dateFound) &&
         (!(set_date_in_mini_editor d t env).timeSet ||
            (set_date_in_mini_editor d t env).timeFound)) = true) ∧
    (∀ (d t : String) (env : MiniEnv),
        ((!(set_start_date_in_mini_editor d t env).dateSet ||
            (set_start_date_in_mini_editor d t env).dateFound) &&
         (!(set_start_date_in_mini_editor d t env).timeSet ||
            (set_start_date_in_mini_editor d t env).timeFound)) = true) ∧
    (∀ (d t : String) (env : MiniEnv),
        set_date_in_mini_editor d t { env with outerRaises := true } =
          allFalseOutcome) ∧
    (∀ (d t : String) (env : MiniEnv),
        set_start_date_in_mini_editor d t { env with outerRaises := true } =
          allFalseOutcome) ∧
    (∀ (cid : Option String) (env : IframeEnv),
        set_date_in_iframe (r"10/19/2025") (r"2:30 PM") cid
          { env with cbFound := true, cbChecked := true, step2Raises := true } =
          allFalseOutcome) := by
  refine ⟨iframe_flag_invariant, ?_, ?_, ?_, ?_, ?_⟩
  · intro d t env
    unfold set_date_in_mini_editor
    cases ho : env.outerRaises with
    | true => simp [allFalseOutcome]
    | false =>
      cases hd : env.dialogAppears with
      | false => simp [allFalseOutcome]
      | true =>
        by_cases hf : env.frames = []
        · simp [hf, allFalseOutcome]
        · cases hsel : selectFrame env.frames with
          | none => simp [hf, hsel, allFalseOutcome]
          | some i => simpa [hf, hsel] using
              iframe_flag_invariant d t none env.inner
  · intro d t env
    unfold set_start_date_in_mini_editor
    cases ho : env.outerRaises with
    | true => simp [allFalseOutcome]
    | false =>
      cases hd : env.dialogAppears with
      | false => simp [allFalseOutcome]
      | true =>
        by_cases hf : env.frames = []
        · simp [hf, allFalseOutcome]
        · cases hsel : selectFrame env.frames with
          | none => simp [hf, hsel, allFalseOutcome]
          | some i => simpa [hf, hsel] using
              iframe_flag_invariant d t (some (r"z_o")) env.inner
  · intro d t env
    unfold set_date_in_mini_editor
    simp
  · intro d t env
    unfold set_start_date_in_mini_editor
    simp
  · intro cid env
    unfold set_date_in_iframe
    cases hp : parseDateTime (r"10/19/2025") (r"2:30 PM") with
    | none => rfl
    | some v => simp [checkboxStep]

/-! ## Lemma suite for C8
A second `normalize` pass is the identity on every label whose first
pass output is dash-free, emoji-free, upper-free, whitespace-canonical
(only single plain spaces), comma-spaced and stripped; the first pass
guarantees all of that for emoji-free labels. -/

/-- Case folding does not create or destroy dash characters. -/
theorem asciiLower_dash (c : Char) :
    isDashChar (asciiLower c) = isDashChar c := by
  unfold asciiLower
  split <;> rfl

/-- Case folding does not create or destroy emoji characters. -/
theorem asciiLower_emoji (c : Char) :
    isEmojiChar (asciiLower c) = isEmojiChar c := by
  unfold asciiLower
  split <;> rfl

/-- Case folding does not create or destroy whitespace. -/
theorem asciiLower_space (c : Char) :
    isPySpace (asciiLower c) = isPySpace c := by
  unfold asciiLower
  split <;> rfl

/-- Case folding fixes the plain space test. -/
theorem asciiLower_is_space (c : Char) :
    (asciiLower c == ' ') = (c == ' ') := by
  unfold asciiLower
  split <;> rfl

/-- Case folding fixes the comma test. -/
theorem asciiLower_is_comma (c : Char) :
    (asciiLower c == ',') = (c == ',') := by
  unfold asciiLower
  split <;> rfl

/-- Case folding never outputs an ASCII upper-case letter. -/
theorem asciiLower_no_upper (c : Char) :
    isUpperAscii (asciiLower c) = false := by
  unfold asciiLower
  split
  all_goals first
  | decide
  | (rename_i h1 h2 h3 h4 h5 h6 h7 h8 h9 h10 h11 h12 h13 h14 h15 h16 h17
      h18 h19 h20 h21 h22 h23 h24 h25 h26
     simp [isUpperAscii, upperAsciiList, List.contains]
     exact ⟨h1, h2, h3, h4, h5, h6, h7, h8, h9, h10, h11, h12, h13, h14,
       h15, h16, h17, h18, h19, h20, h21, h22, h23, h24, h25, h26⟩)

/-- Case folding fixes characters that are not upper-case letters. -/
theorem asciiLower_fix (c : Char) (h : isUpperAscii c = false) :
    asciiLower c = c := by
  unfold asciiLower
  split
  all_goals first
  | rfl
  | (exfalso; exact absurd h (by decide))

/-- An `all` fact restricts along a sublist. -/
theorem sublist_all {p : Char → Bool} {l' l : List Char}
    (h : List.Sublist l' l) (hall : l.all p = true) : l'.all p = true := by
  rw [List.all_eq_true] at *
  exact fun a ha => hall a (h.subset ha)

/-- `trimRight` is a sublist of its input. -/
theorem trimRight_sublist : ∀ l : List Char, List.Sublist (trimRight l) l := by
  intro l
  induction l with
  | nil => simp [trimRight]
  | cons c rest ih =>
    unfold trimRight
    cases hr : trimRight rest with
    | nil =>
      by_cases hc : isPySpace c = true
      · simp [hc]
      · rw [Bool.not_eq_true] at hc
        simp [hc]
    | cons d r =>
      rw [hr] at ih
      exact List.Sublist.cons₂ c ih

/-- `pyStrip` is a sublist of its input. -/
theorem pyStrip_sublist (l : List Char) : List.Sublist (pyStrip l) l :=
  List.Sublist.trans (trimRight_sublist (trimLeft l))
    (List.dropWhile_sublist isPySpace)

/-- `dashSub` preserves an `all` fact that holds of the space. -/
theorem dashSub_all {p : Char → Bool} {l : List Char}
    (hall : l.all p = true) (hsp : p ' ' = true) :
    (dashSub l).all p = true := by
  induction l with
  | nil => rfl
  | cons c rest ih =>
    rw [List.all_cons, Bool.and_eq_true] at hall
    unfold dashSub at *
    rw [List.map_cons, List.all_cons, Bool.and_eq_true]
    refine ⟨?_, ih hall.2⟩
    by_cases hc : isDashChar c = true
    · simp [hc, hsp]
    · rw [Bool.not_eq_true] at hc
      simp [hc, hall.1]

/-- `commaAux` preserves an `all` fact that holds of comma and space. -/
theorem commaAux_all {p : Char → Bool} (flag : Bool) (l : List Char)
    (hall : l.all p = true) (hcm : p ',' = true) (hsp : p ' ' = true) :
    (commaAux flag l).all p = true := by
  induction l generalizing flag with
  | nil => cases flag <;> rfl
  | cons c rest ih =>
    rw [List.all_cons, Bool.and_eq_true] at hall
    cases flag with
    | true =>
      unfold commaAux
      by_cases hws : isPySpace c = true
      · rw [if_pos hws]
        exact ih true hall.2
      · rw [Bool.not_eq_true] at hws
        rw [if_neg (by simp [hws])]
        by_cases hc : c = ','
        · rw [if_pos hc]
          simp only [List.all_cons, Bool.and_eq_true]
          exact ⟨hcm, hsp, ih true hall.2⟩
        · rw [if_neg hc]
          simp only [List.all_cons, Bool.and_eq_true]
          exact ⟨hall.1, ih false hall.2⟩
    | false =>
      unfold commaAux
      by_cases hc : c = ','
      · rw [if_pos hc]
        simp only [List.all_cons, Bool.and_eq_true]
        exact ⟨hcm, hsp, ih true hall.2⟩
      · rw [if_neg hc]
        simp only [List.all_cons, Bool.and_eq_true]
        exact ⟨hall.1, ih false hall.2⟩

/-- `collapseAux` preserves an `all` fact that holds of the space. -/
theorem collapseAux_all {p : Char → Bool} (flag : Bool) (l : List Char)
    (hall : l.all p = true) (hsp : p ' ' = true) :
    (collapseAux flag l).all p = true := by
  induction l generalizing flag with
  | nil => cases flag <;> rfl
  | cons c rest ih =>
    rw [List.all_cons, Bool.and_eq_true] at hall
    cases flag with
    | true =>
      unfold collapseAux
      by_cases hws : isPySpace c = true
      · rw [if_pos hws]
        exact ih true hall.2
      · rw [Bool.not_eq_true] at hws
        rw [if_neg (by simp [hws])]
        simp only [List.all_cons, Bool.and_eq_true]
        exact ⟨hall.1, ih false hall.2⟩
    | false =>
      unfold collapseAux
      by_cases hws : isPySpace c = true
      · rw [if_pos hws]
        simp only [List.all_cons, Bool.and_eq_true]
        exact ⟨hsp, ih true hall.2⟩
      · rw [Bool.not_eq_true] at hws
        rw [if_neg (by simp [hws])]
        simp only [List.all_cons, Bool.and_eq_true]
        exact ⟨hall.1, ih false hall.2⟩

/-- `lowerAll` preserves an `all` fact stable under case folding. -/
theorem lowerAll_all {p : Char → Bool} (l : List Char)
    (heq : ∀ c, p (asciiLower c) = p c) (hall : l.all p = true) :
    (lowerAll l).all p = true := by
  induction l with
  | nil => rfl
  | cons c rest ih =>
    rw [List.all_cons, Bool.and_eq_true] at hall
    unfold lowerAll at *
    rw [List.map_cons, List.all_cons, Bool.and_eq_true]
    exact ⟨by rw [heq]; exact hall.1, ih hall.2⟩

/-- Adjacent-whitespace freedom passes to the tail. -/
theorem noTwoWs_tail {c : Char} {rest : List Char}
    (h : noTwoWs (c :: rest) = true) : noTwoWs rest = true := by
  cases rest with
  | nil => rfl
  | cons d r =>
    unfold noTwoWs at h
    exact (Bool.and_eq_true _ _ |>.mp h).2

/-- Comma spacing passes to the tail. -/
theorem commaOk_tail {c : Char} {rest : List Char}
    (h : commaOk (c :: rest) = true) : commaOk rest = true := by
  cases rest with
  | nil => rfl
  | cons d r =>
    unfold commaOk at h
    exact (Bool.and_eq_true _ _ |>.mp h).2

/-- Strong comma spacing passes to the tail. -/
theorem commaSpaced_tail {c : Char} {rest : List Char}
    (h : commaSpaced (c :: rest) = true) : commaSpaced rest = true := by
  cases rest with
  | nil => rfl
  | cons d r =>
    unfold commaSpaced at h
    exact (Bool.and_eq_true _ _ |>.mp h).2

/-- Extending an adjacent-whitespace-free list with a head that is
non-whitespace, or before a non-whitespace head, stays free. -/
theorem noTwoWs_cons {c : Char} {z : List Char} (hz : noTwoWs z = true)
    (hc : isPySpace c = false ∨ headNoWs z = true) :
    noTwoWs (c :: z) = true := by
  cases z with
  | nil => rfl
  | cons d r =>
    unfold noTwoWs
    rw [Bool.and_eq_true]
    refine ⟨?_, hz⟩
    cases hc with
    | inl h => simp [h]
    | inr h =>
      unfold headNoWs at h
      rw [Bool.not_eq_true'] at h
      simp [h]

/-- Strong comma spacing survives a non-comma head. -/
theorem commaSpaced_cons {c : Char} {z : List Char}
    (hc : (c == ',') = false) (hz : commaSpaced z = true) :
    commaSpaced (c :: z) = true := by
  cases z with
  | nil => simpa [commaSpaced] using hc
  | cons d r =>
    unfold commaSpaced
    rw [Bool.and_eq_true]
    exact ⟨by simp [hc], hz⟩

/-- `trimLeft` keeps a list whose head is not whitespace. -/
theorem trimLeft_id {l : List Char} (h : headNoWs l = true) :
    trimLeft l = l := by
  cases l with
  | nil => rfl
  | cons c rest =>
    unfold headNoWs at h
    rw [Bool.not_eq_true'] at h
    simp [trimLeft, List.dropWhile_cons, h]

/-- The head of a left-trim is never whitespace. -/
theorem headNoWs_trimLeft (l : List Char) : headNoWs (trimLeft l) = true := by
  induction l with
  | nil => rfl
  | cons c rest ih =>
    by_cases hc : isPySpace c = true
    · simpa [trimLeft, List.dropWhile_cons, hc] using ih
    · rw [Bool.not_eq_true] at hc
      simp [trimLeft, List.dropWhile_cons, hc, headNoWs]

/-- `trimLeft` preserves adjacent-whitespace freedom. -/
theorem noTwoWs_trimLeft {l : List Char} (h : noTwoWs l = true) :
    noTwoWs (trimLeft l) = true := by
  induction l with
  | nil => rfl
  | cons c rest ih =>
    by_cases hc : isPySpace c = true
    · simpa [trimLeft, List.dropWhile_cons, hc] using ih (noTwoWs_tail h)
    · rw [Bool.not_eq_true] at hc
      simpa [trimLeft, List.dropWhile_cons, hc] using h

/-- `trimLeft` preserves comma spacing. -/
theorem commaOk_trimLeft {l : List Char} (h : commaOk l = true) :
    commaOk (trimLeft l) = true := by
  induction l with
  | nil => rfl
  | cons c rest ih =>
    by_cases hc : isPySpace c = true
    · simpa [trimLeft, List.dropWhile_cons, hc] using ih (commaOk_tail h)
    · rw [Bool.not_eq_true] at hc
      simpa [trimLeft, List.dropWhile_cons, hc] using h

/-- A right-trim of a cons is empty or keeps the same head. -/
theorem trimRight_cons_shape (c : Char) (rest : List Char) :
    trimRight (c :: rest) = [] ∨ ∃ z, trimRight (c :: rest) = c :: z := by
  unfold trimRight
  cases trimRight rest with
  | nil =>
    by_cases hc : isPySpace c = true
    · left; simp [hc]
    · right; rw [Bool.not_eq_true] at hc; exact ⟨[], by simp [hc]⟩
  | cons d r => right; exact ⟨d :: r, rfl⟩

/-- The head of a right-trim is not whitespace when the original head
is not. -/
theorem headNoWs_trimRight {l : List Char} (h : headNoWs l = true) :
    headNoWs (trimRight l) = true := by
  cases l with
  | nil => rfl
  | cons c rest =>
    rcases trimRight_cons_shape c rest with hs | ⟨z, hs⟩
    · rw [hs]; rfl
    · rw [hs]
      unfold headNoWs at *
      exact h

/-- The last character of a right-trim is never whitespace. -/
theorem lastNoWs_trimRight (l : List Char) : lastNoWs (trimRight l) = true := by
  induction l with
  | nil => rfl
  | cons c rest ih =>
    unfold trimRight
    cases hr : trimRight rest with
    | nil =>
      by_cases hc : isPySpace c = true
      · simp [hc]; rfl
      · rw [Bool.not_eq_true] at hc
        simp [hc, lastNoWs]
    | cons d r =>
      rw [hr] at ih
      unfold lastNoWs at *
      rw [List.getLast?_cons_cons]
      exact ih

/-- `trimRight` keeps a list whose last character is not whitespace. -/
theorem trimRight_id : ∀ {l : List Char}, lastNoWs l = true → trimRight l = l := by
  intro l
  induction l with
  | nil => intro h; rfl
  | cons c rest ih =>
    intro h
    cases rest with
    | nil =>
      unfold lastNoWs at h
      simp only [List.getLast?_singleton] at h
      rw [Bool.not_eq_true'] at h
      simp [trimRight, h]
    | cons d r =>
      unfold lastNoWs at h
      rw [List.getLast?_cons_cons] at h
      have hih : trimRight (d :: r) = d :: r := ih h
      show (match trimRight (d :: r) with
            | [] => if isPySpace c = true then [] else [c]
            | r => c :: r) = c :: d :: r
      rw [hih]

/-- A trailing space never survives `trimRight`. -/
theorem trimRight_append_space (l : List Char) :
    trimRight (l ++ [' ']) = trimRight l := by
  induction l with
  | nil =>
    simp [trimRight]
    decide
  | cons c rest ih =>
    simp only [List.cons_append]
    unfold trimRight
    rw [ih]

/-- `pyStrip` keeps a list stripped at both ends. -/
theorem pyStrip_id {l : List Char} (h1 : headNoWs l = true)
    (h2 : lastNoWs l = true) : pyStrip l = l := by
  unfold pyStrip
  rw [trimLeft_id h1, trimRight_id h2]

/-- The head of a `pyStrip` output is never whitespace. -/
theorem headNoWs_pyStrip (l : List Char) : headNoWs (pyStrip l) = true :=
  headNoWs_trimRight (headNoWs_trimLeft l)

/-- The last character of a `pyStrip` output is never whitespace. -/
theorem lastNoWs_pyStrip (l : List Char) : lastNoWs (pyStrip l) = true :=
  lastNoWs_trimRight (trimLeft l)

/-- `trimRight` preserves adjacent-whitespace freedom. -/
theorem noTwoWs_trimRight : ∀ {l : List Char}, noTwoWs l = true →
    noTwoWs (trimRight l) = true := by
  intro l
  induction l with
  | nil => intro h; rfl
  | cons c rest ih =>
    intro h
    unfold trimRight
    cases hr : trimRight rest with
    | nil =>
      by_cases hc : isPySpace c = true
      · simp [hc]; rfl
      · rw [Bool.not_eq_true] at hc
        simp [hc]; rfl
    | cons d r =>
      cases rest with
      | nil => exact absurd hr (by simp [trimRight])
      | cons e rest' =>
        rcases trimRight_cons_shape e rest' with hs | ⟨z, hs⟩
        · rw [hs] at hr; exact absurd hr (by simp)
        · rw [hs] at hr
          have hde : e = d := (List.cons.injEq _ _ _ _ |>.mp hr).1
          have hih := ih (noTwoWs_tail h)
          rw [hs, hr] at hih
          show noTwoWs (c :: d :: r) = true
          unfold noTwoWs
          rw [Bool.and_eq_true]
          refine ⟨?_, hih⟩
          rw [← hde]
          unfold noTwoWs at h
          rw [Bool.and_eq_true] at h
          exact h.1

/-- `trimRight` preserves comma spacing (a comma whose trailing space
is trimmed away becomes a final comma, which stays admissible). -/
theorem commaOk_trimRight : ∀ {l : List Char}, commaOk l = true →
    commaOk (trimRight l) = true := by
  intro l
  induction l with
  | nil => intro h; rfl
  | cons c rest ih =>
    intro h
    unfold trimRight
    cases hr : trimRight rest with
    | nil =>
      by_cases hc : isPySpace c = true
      · simp [hc]; rfl
      · rw [Bool.not_eq_true] at hc
        simp [hc]; rfl
    | cons d r =>
      cases rest with
      | nil => exact absurd hr (by simp [trimRight])
      | cons e rest' =>
        rcases trimRight_cons_shape e rest' with hs | ⟨z, hs⟩
        · rw [hs] at hr; exact absurd hr (by simp)
        · rw [hs] at hr
          have hde : e = d := (List.cons.injEq _ _ _ _ |>.mp hr).1
          have hih := ih (commaOk_tail h)
          rw [hs, hr] at hih
          show commaOk (c :: d :: r) = true
          unfold commaOk
          rw [Bool.and_eq_true]
          refine ⟨?_, hih⟩
          rw [← hde]
          unfold commaOk at h
          rw [Bool.and_eq_true] at h
          exact h.1

/-- Appending a space to a list not ending in whitespace keeps it free
of adjacent whitespace. -/
theorem noTwoWs_append_space : ∀ {l : List Char}, noTwoWs l = true →
    lastNoWs l = true → noTwoWs (l ++ [' ']) = true := by
  intro l
  induction l with
  | nil => intro h1 h2; rfl
  | cons c rest ih =>
    intro h1 h2
    cases rest with
    | nil =>
      unfold lastNoWs at h2
      simp only [List.getLast?_singleton] at h2
      rw [Bool.not_eq_true'] at h2
      show noTwoWs (c :: ' ' :: []) = true
      unfold noTwoWs
      simp [h2]
      decide
    | cons d r =>
      unfold lastNoWs at h2
      rw [List.getLast?_cons_cons] at h2
      have hih := ih (noTwoWs_tail h1) h2
      show noTwoWs (c :: (d :: r ++ [' '])) = true
      unfold noTwoWs at h1
      rw [Bool.and_eq_true] at h1
      have hcd : isPySpace c = false ∨ isPySpace d = false := by
        simpa [Bool.not_and] using h1.1
      exact noTwoWs_cons hih (by
        rcases hcd with hc | hd
        · exact Or.inl hc
        · refine Or.inr ?_
          show headNoWs (d :: (r ++ [' '])) = true
          unfold headNoWs
          simp [hd])

/-- The output of the skipping state of the collapse scanner never
starts with whitespace. -/
theorem collapseAux_true_head (l : List Char) :
    headNoWs (collapseAux true l) = true := by
  induction l with
  | nil => rfl
  | cons c rest ih =>
    unfold collapseAux
    by_cases hc : isPySpace c = true
    · rw [if_pos hc]; exact ih
    · rw [Bool.not_eq_true] at hc
      rw [if_neg (by simp [hc])]
      unfold headNoWs
      simp [hc]

/-- On a list whose head is not whitespace the two collapse states
agree. -/
theorem collapseAux_true_eq_false {l : List Char} (h : headNoWs l = true) :
    collapseAux true l = collapseAux false l := by
  cases l with
  | nil => rfl
  | cons c rest =>
    unfold headNoWs at h
    rw [Bool.not_eq_true'] at h
    unfold collapseAux
    rw [if_neg (by simp [h]), if_neg (by simp [h])]

/-- The collapse scanner never emits two adjacent whitespace
characters. -/
theorem collapseAux_noTwoWs : ∀ (flag : Bool) (l : List Char),
    noTwoWs (collapseAux flag l) = true := by
  intro flag l
  induction l generalizing flag with
  | nil => cases flag <;> rfl
  | cons c rest ih =>
    cases flag with
    | true =>
      unfold collapseAux
      by_cases hc : isPySpace c = true
      · rw [if_pos hc]; exact ih true
      · rw [Bool.not_eq_true] at hc
        rw [if_neg (by simp [hc])]
        exact noTwoWs_cons (ih false) (Or.inl hc)
    | false =>
      unfold collapseAux
      by_cases hc : isPySpace c = true
      · rw [if_pos hc]
        exact noTwoWs_cons (ih true) (Or.inr (collapseAux_true_head rest))
      · rw [Bool.not_eq_true] at hc
        rw [if_neg (by simp [hc])]
        exact noTwoWs_cons (ih false) (Or.inl hc)

/-- Every whitespace character the collapse scanner emits is a plain
space. -/
theorem collapseAux_wsIsSpace : ∀ (flag : Bool) (l : List Char),
    wsIsSpace (collapseAux flag l) = true := by
  intro flag l
  induction l generalizing flag with
  | nil => cases flag <;> rfl
  | cons c rest ih =>
    cases flag with
    | true =>
      unfold collapseAux
      by_cases hc : isPySpace c = true
      · rw [if_pos hc]; exact ih true
      · rw [Bool.not_eq_true] at hc
        rw [if_neg (by simp [hc])]
        unfold wsIsSpace
        rw [List.all_cons, Bool.and_eq_true]
        exact ⟨by simp [hc], ih false⟩
    | false =>
      unfold collapseAux
      by_cases hc : isPySpace c = true
      · rw [if_pos hc]
        unfold wsIsSpace
        rw [List.all_cons, Bool.and_eq_true]
        exact ⟨by simp, ih true⟩
      · rw [Bool.not_eq_true] at hc
        rw [if_neg (by simp [hc])]
        unfold wsIsSpace
        rw [List.all_cons, Bool.and_eq_true]
        exact ⟨by simp [hc], ih false⟩

/-- The collapse scanner fixes a list whose whitespace is already
single plain spaces. -/
theorem collapse_fix : ∀ {l : List Char}, wsIsSpace l = true →
    noTwoWs l = true → collapseAux false l = l := by
  intro l
  induction l with
  | nil => intro h1 h2; rfl
  | cons c rest ih =>
    intro h1 h2
    have h1t : wsIsSpace rest = true := by
      unfold wsIsSpace at h1 ⊢
      rw [List.all_cons, Bool.and_eq_true] at h1
      exact h1.2
    unfold collapseAux
    by_cases hc : isPySpace c = true
    · rw [if_pos hc]
      have hcsp : c = ' ' := by
        unfold wsIsSpace at h1
        rw [List.all_cons, Bool.and_eq_true] at h1
        have := h1.1
        rw [hc] at this
        simpa using this
      cases rest with
      | nil => rw [hcsp]; rfl
      | cons d r =>
        have hd : isPySpace d = false := by
          unfold noTwoWs at h2
          rw [Bool.and_eq_true] at h2
          have := h2.1
          rw [hc] at this
          simpa using this
        rw [collapseAux_true_eq_false (by unfold headNoWs; simp [hd])]
        rw [ih h1t (noTwoWs_tail h2), hcsp]
    · rw [Bool.not_eq_true] at hc
      rw [if_neg (by simp [hc])]
      rw [ih h1t (noTwoWs_tail h2)]

/-- Unfolding equation of the comma scanner in copy state. -/
theorem commaAux_false_cons (c : Char) (rest : List Char) :
    commaAux false (c :: rest) =
      if c = ',' then ',' :: ' ' :: commaAux true rest
      else c :: commaAux false rest := rfl

/-- Unfolding equation of the comma scanner in skip state. -/
theorem commaAux_true_cons (c : Char) (rest : List Char) :
    commaAux true (c :: rest) =
      if isPySpace c then commaAux true rest
      else if c = ',' then ',' :: ' ' :: commaAux true rest
      else c :: commaAux false rest := rfl

/-- On a list whose head is not whitespace the two comma-scanner
states agree. -/
theorem commaAux_true_eq_false {l : List Char} (h : headNoWs l = true) :
    commaAux true l = commaAux false l := by
  cases l with
  | nil => rfl
  | cons c rest =>
    unfold headNoWs at h
    rw [Bool.not_eq_true'] at h
    unfold commaAux
    rw [if_neg (by simp [h])]

/-- The comma scanner fixes a comma-spaced list with canonical
whitespace, up to possibly appending one space after a final comma. -/
theorem commaAux_false_fix : ∀ {l : List Char}, commaOk l = true →
    wsIsSpace l = true → noTwoWs l = true →
    commaAux false l = l ∨ commaAux false l = l ++ [' '] := by
  intro l
  induction l with
  | nil => intro h1 h2 h3; exact Or.inl rfl
  | cons c rest ih =>
    intro h1 h2 h3
    have h2t : wsIsSpace rest = true := by
      unfold wsIsSpace at h2 ⊢
      rw [List.all_cons, Bool.and_eq_true] at h2
      exact h2.2
    by_cases hc : c = ','
    · subst hc
      cases rest with
      | nil => exact Or.inr rfl
      | cons d r =>
        have hd : d = ' ' := by
          unfold commaOk at h1
          rw [Bool.and_eq_true] at h1
          simpa using h1.1
        subst hd
        have hhr : headNoWs r = true := by
          have hnt := noTwoWs_tail h3
          cases r with
          | nil => rfl
          | cons e r' =>
            unfold noTwoWs at hnt
            rw [Bool.and_eq_true] at hnt
            have h1r := hnt.1
            rw [(by decide : isPySpace ' ' = true)] at h1r
            unfold headNoWs
            simpa using h1r
        rw [commaAux_false_cons, if_pos rfl, commaAux_true_cons,
          if_pos (by decide), commaAux_true_eq_false hhr]
        have hrest := ih (commaOk_tail h1) h2t (noTwoWs_tail h3)
        rw [commaAux_false_cons, if_neg (by decide)] at hrest
        rcases hrest with hr | hr
        · rw [List.cons.injEq] at hr
          exact Or.inl (by rw [hr.2])
        · rw [List.cons_append, List.cons.injEq] at hr
          exact Or.inr (by rw [hr.2]; rfl)
    · rw [commaAux_false_cons, if_neg hc]
      rcases ih (commaOk_tail h1) h2t (noTwoWs_tail h3) with hr | hr
      · exact Or.inl (by rw [hr])
      · exact Or.inr (by rw [hr]; rfl)

/-- Unfolding equation of `commaSpaced` at two elements. -/
theorem commaSpaced_cons_cons (c d : Char) (r : List Char) :
    commaSpaced (c :: d :: r) =
      ((!(c == ',') || d == ' ') && commaSpaced (d :: r)) := rfl

/-- Unfolding equation of `commaOk` at two elements. -/
theorem commaOk_cons_cons (c d : Char) (r : List Char) :
    commaOk (c :: d :: r) =
      ((!(c == ',') || d == ' ') && commaOk (d :: r)) := rfl

/-- Unfolding equation of the collapse scanner in skip state. -/
theorem collapseAux_true_cons (c : Char) (rest : List Char) :
    collapseAux true (c :: rest) =
      if isPySpace c then collapseAux true rest
      else c :: collapseAux false rest := rfl

/-- Unfolding equation of the collapse scanner in copy state. -/
theorem collapseAux_false_cons (c : Char) (rest : List Char) :
    collapseAux false (c :: rest) =
      if isPySpace c then ' ' :: collapseAux true rest
      else c :: collapseAux false rest := rfl

/-- Every comma the comma scanner emits is followed by a space. -/
theorem commaAux_commaSpaced : ∀ (flag : Bool) (l : List Char),
    commaSpaced (commaAux flag l) = true := by
  intro flag l
  induction l generalizing flag with
  | nil => cases flag <;> rfl
  | cons c rest ih =>
    cases flag with
    | true =>
      rw [commaAux_true_cons]
      by_cases hws : isPySpace c = true
      · rw [if_pos (by simp [hws])]
        exact ih true
      · rw [Bool.not_eq_true] at hws
        rw [if_neg (by simp [hws])]
        by_cases hc : c = ','
        · rw [if_pos hc]
          rw [commaSpaced_cons_cons, Bool.and_eq_true]
          exact ⟨by decide, commaSpaced_cons (by decide) (ih true)⟩
        · rw [if_neg hc]
          exact commaSpaced_cons (by simpa using hc) (ih false)
    | false =>
      rw [commaAux_false_cons]
      by_cases hc : c = ','
      · rw [if_pos hc]
        rw [commaSpaced_cons_cons, Bool.and_eq_true]
        exact ⟨by decide, commaSpaced_cons (by decide) (ih true)⟩
      · rw [if_neg hc]
        exact commaSpaced_cons (by simpa using hc) (ih false)

/-- The collapse scanner preserves strong comma spacing. -/
theorem collapse_commaSpaced : ∀ (flag : Bool) {l : List Char},
    commaSpaced l = true → commaSpaced (collapseAux flag l) = true := by
  intro flag l
  induction l generalizing flag with
  | nil => intro h; cases flag <;> rfl
  | cons c rest ih =>
    intro h
    by_cases hws : isPySpace c = true
    · cases flag with
      | true =>
        rw [collapseAux_true_cons, if_pos (by simp [hws])]
        exact ih true (commaSpaced_tail h)
      | false =>
        rw [collapseAux_false_cons, if_pos (by simp [hws])]
        exact commaSpaced_cons (by decide) (ih true (commaSpaced_tail h))
    · rw [Bool.not_eq_true] at hws
      by_cases hc : c = ','
      · subst hc
        cases rest with
        | nil => exact absurd h (by decide)
        | cons d r =>
          have hd : d = ' ' := by
            rw [commaSpaced_cons_cons, Bool.and_eq_true] at h
            simpa using h.1
          subst hd
          have hstep : ∀ fl : Bool, collapseAux fl (',' :: ' ' :: r) =
              ',' :: ' ' :: collapseAux true r := by
            intro fl
            cases fl with
            | true =>
              rw [collapseAux_true_cons, if_neg (by simp [hws]),
                collapseAux_false_cons, if_pos (by decide)]
            | false =>
              rw [collapseAux_false_cons, if_neg (by simp [hws]),
                collapseAux_false_cons, if_pos (by decide)]
          rw [hstep flag]
          rw [commaSpaced_cons_cons, Bool.and_eq_true]
          refine ⟨by decide, ?_⟩
          have hin := ih false (commaSpaced_tail h)
          rw [collapseAux_false_cons, if_pos (by decide)] at hin
          exact hin
      · cases flag with
        | true =>
          rw [collapseAux_true_cons, if_neg (by simp [hws])]
          exact commaSpaced_cons (by simpa using hc)
            (ih false (commaSpaced_tail h))
        | false =>
          rw [collapseAux_false_cons, if_neg (by simp [hws])]
          exact commaSpaced_cons (by simpa using hc)
            (ih false (commaSpaced_tail h))

/-- Strong comma spacing implies the relaxed form. -/
theorem commaSpaced_imp_commaOk : ∀ {l : List Char},
    commaSpaced l = true → commaOk l = true := by
  intro l
  induction l with
  | nil => intro h; rfl
  | cons c rest ih =>
    intro h
    cases rest with
    | nil => rfl
    | cons d r =>
      rw [commaSpaced_cons_cons, Bool.and_eq_true] at h
      rw [commaOk_cons_cons, Bool.and_eq_true]
      exact ⟨h.1, ih h.2⟩

/-- `lowerAll` unfolding at a cons. -/
theorem lowerAll_cons (c : Char) (rest : List Char) :
    lowerAll (c :: rest) = asciiLower c :: lowerAll rest := rfl

/-- Case folding preserves adjacent-whitespace freedom. -/
theorem lowerAll_noTwoWs : ∀ {l : List Char}, noTwoWs l = true →
    noTwoWs (lowerAll l) = true := by
  intro l
  induction l with
  | nil => intro h; rfl
  | cons c rest ih =>
    intro h
    cases rest with
    | nil => rfl
    | cons d r =>
      rw [lowerAll_cons, lowerAll_cons]
      show noTwoWs (asciiLower c :: asciiLower d :: lowerAll r) = true
      unfold noTwoWs at h ⊢
      rw [Bool.and_eq_true] at h ⊢
      refine ⟨by rw [asciiLower_space, asciiLower_space]; exact h.1, ?_⟩
      have := ih h.2
      rw [lowerAll_cons] at this
      exact this

/-- Case folding preserves comma spacing. -/
theorem lowerAll_commaOk : ∀ {l : List Char}, commaOk l = true →
    commaOk (lowerAll l) = true := by
  intro l
  induction l with
  | nil => intro h; rfl
  | cons c rest ih =>
    intro h
    cases rest with
    | nil => rfl
    | cons d r =>
      rw [lowerAll_cons, lowerAll_cons]
      rw [commaOk_cons_cons, Bool.and_eq_true]
      rw [commaOk_cons_cons, Bool.and_eq_true] at h
      refine ⟨by rw [asciiLower_is_comma, asciiLower_is_space]; exact h.1, ?_⟩
      have := ih h.2
      rw [lowerAll_cons] at this
      exact this

/-- Case folding preserves a whitespace-free head. -/
theorem headNoWs_lowerAll {l : List Char} (h : headNoWs l = true) :
    headNoWs (lowerAll l) = true := by
  cases l with
  | nil => rfl
  | cons c rest =>
    have h' : (!isPySpace c) = true := h
    show (!isPySpace (asciiLower c)) = true
    rw [asciiLower_space]
    exact h'

/-- Case folding preserves a whitespace-free last character. -/
theorem lastNoWs_lowerAll : ∀ {l : List Char}, lastNoWs l = true →
    lastNoWs (lowerAll l) = true := by
  intro l
  induction l with
  | nil => intro h; rfl
  | cons c rest ih =>
    intro h
    cases rest with
    | nil =>
      have h' : (!isPySpace c) = true := by
        unfold lastNoWs at h
        simpa only [List.getLast?_singleton] using h
      show (!isPySpace (asciiLower c)) = true
      rw [asciiLower_space]
      exact h'
    | cons d r =>
      unfold lastNoWs at h ⊢
      rw [List.getLast?_cons_cons] at h
      rw [lowerAll_cons, lowerAll_cons, List.getLast?_cons_cons]
      have := ih h
      unfold lastNoWs at this
      rw [lowerAll_cons] at this
      exact this

/-- Case folding fixes a list without ASCII upper-case letters. -/
theorem lowerAll_fix : ∀ {l : List Char}, noUpperP l = true →
    lowerAll l = l := by
  intro l
  induction l with
  | nil => intro h; rfl
  | cons c rest ih =>
    intro h
    unfold noUpperP at h
    rw [List.all_cons, Bool.and_eq_true] at h
    rw [lowerAll_cons, asciiLower_fix c (by simpa using h.1), ih h.2]

/-- Case folding leaves no ASCII upper-case letters. -/
theorem noUpperP_lowerAll (l : List Char) : noUpperP (lowerAll l) = true := by
  induction l with
  | nil => rfl
  | cons c rest ih =>
    rw [lowerAll_cons]
    unfold noUpperP at ih ⊢
    rw [List.all_cons, Bool.and_eq_true]
    exact ⟨by rw [asciiLower_no_upper]; rfl, ih⟩

/-- Dash folding fixes a dash-free list. -/
theorem dashSub_id : ∀ {l : List Char}, noDashP l = true → dashSub l = l := by
  intro l
  induction l with
  | nil => intro h; rfl
  | cons c rest ih =>
    intro h
    unfold noDashP at h
    rw [List.all_cons, Bool.and_eq_true] at h
    unfold dashSub at ih ⊢
    rw [List.map_cons, if_neg (by simpa using h.1), ih h.2]

/-- Dash folding leaves no dash characters. -/
theorem noDashP_dashSub (l : List Char) : noDashP (dashSub l) = true := by
  induction l with
  | nil => rfl
  | cons c rest ih =>
    unfold dashSub at ih ⊢
    unfold noDashP at ih ⊢
    rw [List.map_cons, List.all_cons, Bool.and_eq_true]
    refine ⟨?_, ih⟩
    by_cases hc : isDashChar c = true
    · rw [if_pos hc]; decide
    · rw [Bool.not_eq_true] at hc
      simp [hc]

/-- The emoji filter fixes an emoji-free list. -/
theorem filter_emoji_id {l : List Char} (h : noEmojiP l = true) :
    List.filter (fun c => !isEmojiChar c) l = l := by
  refine List.filter_eq_self.mpr ?_
  unfold noEmojiP at h
  rw [List.all_eq_true] at h
  exact h

/-- On emoji-free input `_remove_emojis` is exactly `strip()`. -/
theorem removeEmojis_eq_pyStrip {l : List Char} (h : noEmojiP l = true) :
    removeEmojis l = pyStrip l := by
  unfold removeEmojis
  rw [filter_emoji_id h]

/-- Stripping a trailing space is absorbed by `pyStrip`. -/
theorem pyStrip_append_space (l : List Char) :
    pyStrip (l ++ [' ']) = pyStrip l := by
  unfold pyStrip trimLeft
  rw [List.dropWhile_append]
  by_cases he : (l.dropWhile isPySpace).isEmpty = true
  · rw [if_pos he]
    rw [List.isEmpty_iff] at he
    rw [he]
    rfl
  · rw [if_neg he]
    exact trimRight_append_space _

/-- The first normalization pass of an emoji-free label produces a
dash-free, emoji-free, upper-free, whitespace-canonical, comma-spaced,
stripped list. -/
theorem normalizeChars_shape {l : List Char} (hl : noEmojiP l = true) :
    noDashP (normalizeChars l) = true ∧ noEmojiP (normalizeChars l) = true ∧
    noUpperP (normalizeChars l) = true ∧ wsIsSpace (normalizeChars l) = true ∧
    noTwoWs (normalizeChars l) = true ∧ commaOk (normalizeChars l) = true ∧
    headNoWs (normalizeChars l) = true ∧
    lastNoWs (normalizeChars l) = true := by
  have e1 : noEmojiP (dashSub l) = true := dashSub_all hl (by decide)
  have e2 : noEmojiP (commaSub (dashSub l)) = true :=
    commaAux_all false _ e1 (by decide) (by decide)
  have e3 : noEmojiP (collapseWs (commaSub (dashSub l))) = true :=
    collapseAux_all false _ e2 (by decide)
  have e4 : noEmojiP (pyStrip (collapseWs (commaSub (dashSub l)))) = true :=
    sublist_all (pyStrip_sublist _) e3
  have hh4 : headNoWs (pyStrip (collapseWs (commaSub (dashSub l)))) = true :=
    headNoWs_pyStrip _
  have hl4 : lastNoWs (pyStrip (collapseWs (commaSub (dashSub l)))) = true :=
    lastNoWs_pyStrip _
  have hcore : normCore l = pyStrip (collapseWs (commaSub (dashSub l))) := by
    unfold normCore
    rw [removeEmojis_eq_pyStrip e4, pyStrip_id hh4 hl4]
  have d4 : noDashP (pyStrip (collapseWs (commaSub (dashSub l)))) = true := by
    refine sublist_all (pyStrip_sublist _) ?_
    exact collapseAux_all false _
      (commaAux_all false _ (noDashP_dashSub l) (by decide) (by decide))
      (by decide)
  have w4 : wsIsSpace (pyStrip (collapseWs (commaSub (dashSub l)))) = true :=
    sublist_all (pyStrip_sublist _) (collapseAux_wsIsSpace false _)
  have t4 : noTwoWs (pyStrip (collapseWs (commaSub (dashSub l)))) = true := by
    show noTwoWs (trimRight (trimLeft (collapseWs (commaSub (dashSub l))))) = true
    exact noTwoWs_trimRight (noTwoWs_trimLeft (collapseAux_noTwoWs false _))
  have c4 : commaOk (pyStrip (collapseWs (commaSub (dashSub l)))) = true := by
    show commaOk (trimRight (trimLeft (collapseWs (commaSub (dashSub l))))) = true
    refine commaOk_trimRight (commaOk_trimLeft ?_)
    exact commaSpaced_imp_commaOk
      (collapse_commaSpaced false (commaAux_commaSpaced false _))
  have hy : normalizeChars l =
      lowerAll (pyStrip (collapseWs (commaSub (dashSub l)))) := by
    unfold normalizeChars
    rw [hcore]
  rw [hy]
  refine ⟨?_, ?_, ?_, ?_, ?_, ?_, ?_, ?_⟩
  · exact lowerAll_all _ (fun c => by rw [asciiLower_dash]) d4
  · exact lowerAll_all _ (fun c => by rw [asciiLower_emoji]) e4
  · exact noUpperP_lowerAll _
  · exact lowerAll_all _
      (fun c => by rw [asciiLower_space, asciiLower_is_space]) w4
  · exact lowerAll_noTwoWs t4
  · exact lowerAll_commaOk c4
  · exact headNoWs_lowerAll hh4
  · exact lastNoWs_lowerAll hl4

/-- A second normalization pass fixes any list with the shape the
first pass guarantees. -/
theorem normalizeChars_fix {y : List Char} (d : noDashP y = true)
    (e : noEmojiP y = true) (u : noUpperP y = true)
    (w : wsIsSpace y = true) (t : noTwoWs y = true)
    (co : commaOk y = true) (hh : headNoWs y = true)
    (hl : lastNoWs y = true) : normalizeChars y = y := by
  unfold normalizeChars normCore commaSub collapseWs
  rw [dashSub_id d]
  rcases commaAux_false_fix co w t with hcm | hcm
  · rw [hcm, collapse_fix w t, pyStrip_id hh hl,
      removeEmojis_eq_pyStrip e, pyStrip_id hh hl, lowerAll_fix u]
  · rw [hcm]
    have wsp : wsIsSpace (y ++ [' ']) = true := by
      unfold wsIsSpace at w ⊢
      rw [List.all_append, Bool.and_eq_true]
      exact ⟨w, by decide⟩
    rw [collapse_fix wsp (noTwoWs_append_space t hl), pyStrip_append_space,
      pyStrip_id hh hl, removeEmojis_eq_pyStrip e, pyStrip_id hh hl,
      lowerAll_fix u]

/-- C8 amended: `normalize` is total and deterministic by
construction, and idempotent on every label containing no character of
the stripped emoji ranges (on other labels a second pass may further
collapse whitespace uncovered by emoji removal). -/
theorem c8_normalize_idempotent_emoji_free (s : String)
    (h : emojiFree s = true) :
    normalize (normalize s) = normalize s := by
  unfold normalize
  refine congrArg String.mk ?_
  have hl : noEmojiP s.data = true := h
  obtain ⟨d, e, u, w, t, co, hh, hlast⟩ := normalizeChars_shape hl
  exact normalizeChars_fix d e u w t co hh hlast

/-- Witness for C8 on a concrete emoji-free label with a dash variant
and irregular spacing. -/
theorem c8_normalize_idempotent_emoji_free_witness :
    emojiFree (r"Quiz 1 – Key") = true ∧
    normalize (normalize (r"Quiz 1 – Key")) = normalize (r"Quiz 1 – Key") :=
  ⟨by decide, c8_normalize_idempotent_emoji_free (r"Quiz 1 – Key") (by decide)⟩

end D2L
